import Mathlib

/-! Kernel cycle clock and metrics aggregator (blocktop/go-controller, package kernel)

A shallow embedding of `src/time.go` and `src/metrics.go`.

Modelling conventions

* Go `float64` is embedded as `F64`: an exact rational, or one of `+Inf`, `-Inf`, `NaN`.
  Finite arithmetic is exact (no rounding, one unsigned zero); division by zero and the
  arithmetic of the special values follow IEEE 754 as Go implements it.
* The conversion `int64(x)` of a float truncates toward zero within the 64-bit range;
  beyond the range, and for a non-finite operand, it gives the amd64 result `-2 ^ 63`.
* Go `int64` / `int` / `time.Duration` values are `Int`; the `uint64` cycle counter is a `Nat`
  incremented modulo `2 ^ 64`.
* `time.Now().UnixNano()` is an explicit argument `now : Int`.
* The package globals `ktime` and `metrics` are the two fields of the structure `State`.
* `sync.Map` is embedded, sequentially, as an association list with unique keys.
* A Go run-time panic is the value `none` of an `Option` result.
* The formatting routines of packages outside the repository (`humanize.Comma`, `%v` of a
  `float64`, `time.Duration.String`) are the fields of a parameter `Formatters`.
-/

namespace Kernel

/-! ## float64 -/

/-- Values of Go `float64`: exact finite values and the three IEEE special values. -/
inductive F64 where
  | fin (q : ℚ)
  | pinf
  | ninf
  | nan
deriving DecidableEq, Repr

namespace F64

/-- Conversion `float64(n)` of an integer. -/
def ofInt (n : Int) : F64 := fin (n : ℚ)

/-- Unary minus. -/
def neg : F64 → F64
  | fin q => fin (-q)
  | pinf => ninf
  | ninf => pinf
  | nan => nan

/-- Float addition `x + y`. -/
def add : F64 → F64 → F64
  | fin a, fin b => fin (a + b)
  | nan, _ => nan
  | _, nan => nan
  | pinf, ninf => nan
  | ninf, pinf => nan
  | pinf, _ => pinf
  | _, pinf => pinf
  | ninf, _ => ninf
  | _, ninf => ninf

/-- Float subtraction `x - y`. -/
def sub (x y : F64) : F64 := add x (neg y)

/-- The infinity carrying the sign of the rational `q` (zero counts as positive). -/
def infOfSign (q : ℚ) : F64 := if 0 ≤ q then pinf else ninf

/-- Float multiplication `x * y`. -/
def mul : F64 → F64 → F64
  | fin a, fin b => fin (a * b)
  | nan, _ => nan
  | _, nan => nan
  | pinf, fin b => if b = 0 then nan else infOfSign b
  | ninf, fin b => if b = 0 then nan else infOfSign (-b)
  | fin a, pinf => if a = 0 then nan else infOfSign a
  | fin a, ninf => if a = 0 then nan else infOfSign (-a)
  | pinf, pinf => pinf
  | ninf, ninf => pinf
  | pinf, ninf => ninf
  | ninf, pinf => ninf

/-- Float division `x / y`; a finite value divided by zero is `NaN` (for `0 / 0`) or an
infinity with the sign of the numerator. -/
def div : F64 → F64 → F64
  | fin a, fin b =>
      if b = 0 then (if a = 0 then nan else if 0 < a then pinf else ninf) else fin (a / b)
  | nan, _ => nan
  | _, nan => nan
  | fin _, pinf => fin 0
  | fin _, ninf => fin 0
  | pinf, fin b => infOfSign b
  | ninf, fin b => infOfSign (-b)
  | pinf, pinf => nan
  | pinf, ninf => nan
  | ninf, pinf => nan
  | ninf, ninf => nan

/-- Float comparison `x < y`; every comparison with `NaN` is false. -/
def lt : F64 → F64 → Bool
  | fin a, fin b => decide (a < b)
  | fin _, pinf => true
  | ninf, fin _ => true
  | ninf, pinf => true
  | _, _ => false

/-- A value is finite when it is neither an infinity nor `NaN`. -/
def isFinite : F64 → Bool
  | fin _ => true
  | _ => false

/-- The integral part of a rational, rounding toward zero. -/
def trunc (q : ℚ) : Int := Int.tdiv q.num (q.den : Int)

/-- Conversion `int64(x)`: a finite value is truncated toward zero when the result fits in
64 bits. For a value beyond the `int64` range and for a non-finite operand Go leaves the
result implementation-dependent; the value fixed here is the amd64 one, `-2 ^ 63`. -/
def toInt64 : F64 → Int
  | fin q => if -(2 ^ 63) ≤ trunc q ∧ trunc q < 2 ^ 63 then trunc q else -(2 ^ 63)
  | _ => -(2 ^ 63)

end F64

/-- The constant `time.Second`, in nanoseconds. -/
def Second : Int := 1000000000

/-! ## The moving-average collaborator -/

/-- Modelled from the spec: the external moving-average set `movavg.SMASet`
(github.com/blocktop/movavg, not part of this repository). It keeps the fixed list of
window sizes and the append-only sequence of samples, oldest first. -/
structure SMASet where
  windows : List Nat
  samples : List F64
deriving DecidableEq, Repr

/-- Modelled from the spec: `movavg.NewSMASet(windows)`, a series without samples. -/
def NewSMASet (windows : List Nat) : SMASet := { windows := windows, samples := [] }

namespace SMASet

/-- Modelled from the spec: `SMASet.Add(v)` appends one sample. -/
def Add (s : SMASet) (v : F64) : SMASet := { s with samples := s.samples ++ [v] }

/-- Float sum of a list of samples, left to right. -/
def sum (xs : List F64) : F64 := xs.foldl F64.add (F64.fin 0)

/-- Arithmetic mean of a list of samples; the mean of no samples is taken to be `0`. -/
def mean (xs : List F64) : F64 :=
  if xs.isEmpty then F64.fin 0 else F64.div (sum xs) (F64.ofInt xs.length)

/-- The most recent `w` samples (all of them when fewer than `w` were observed). -/
def lastWindow (s : SMASet) (w : Nat) : List F64 := s.samples.drop (s.samples.length - w)

/-- Modelled from the spec: `SMASet.Avg()`, one value per configured window, in the order
of the windows: the arithmetic mean of the most recent `w` samples, or of all samples when
fewer than `w` have been observed. -/
def Avg (s : SMASet) : List F64 := s.windows.map (fun w => mean (s.lastWindow w))

end SMASet

/-! ## time.go -/

/-- The clock `KernelTime`. -/
structure KernelTime where
  blockFrequency : F64
  blockInterval : Int
  intervalLen : String
  cycleNumber : Nat
  startTime : Int
  cycleStartTime : Int
deriving DecidableEq, Repr

namespace KernelTime

/-- The Go zero value `&KernelTime{}`. -/
def zero : KernelTime :=
  { blockFrequency := F64.fin 0, blockInterval := 0, intervalLen := "", cycleNumber := 0,
    startTime := 0, cycleStartTime := 0 }

/-- Go `setBlockFrequency(rate)`: stores the rate, the interval `time.Second / rate`
converted to an integer number of nanoseconds, and the digit count of that interval. -/
def setBlockFrequency (t : KernelTime) (rate : F64) : KernelTime :=
  let interval := F64.toInt64 (F64.div (F64.ofInt Second) rate)
  { t with
    blockFrequency := rate
    blockInterval := interval
    intervalLen := toString (toString interval).length }

/-- Accessor `BlockFrequency()`. -/
def BlockFrequency (t : KernelTime) : F64 := t.blockFrequency

/-- Accessor `BlockInterval()`. -/
def BlockInterval (t : KernelTime) : Int := t.blockInterval

/-- Accessor `CycleNumber()`. -/
def CycleNumber (t : KernelTime) : Nat := t.cycleNumber

/-- Go `Nanos()`: nanoseconds since activation, the wall clock being `now`. -/
def Nanos (t : KernelTime) (now : Int) : Int := now - t.startTime

/-- Go `UpTime()`. -/
def UpTime (t : KernelTime) (now : Int) : Int := t.Nanos now

/-- Go `up()`: records the activation instant. -/
def up (t : KernelTime) (now : Int) : KernelTime := { t with startTime := now }

end KernelTime

/-- Go `initTime(blockFrequency)`: a zero clock configured with the frequency. -/
def initTime (blockFrequency : F64) : KernelTime :=
  KernelTime.zero.setBlockFrequency blockFrequency

/-! ## metrics.go -/

/-- The window sizes `SMAWindows`. -/
def SMAWindows : List Nat := [10, 100, 1000, 10000, 100000, 1000000]

/-- The aggregator `KernelMetrics`; `recvQCounts` is the `sync.Map` from name to series. -/
structure KernelMetrics where
  cycleTime : SMASet
  maintTime : SMASet
  maintTimePercent : SMASet
  genBlockTime : SMASet
  addBlockTime : SMASet
  confBlockTime : SMASet
  evalTime : SMASet
  computedProcTime : SMASet
  computedProcTimePercent : SMASet
  actualProcTime : SMASet
  actualProcTimePercent : SMASet
  blockQCount : SMASet
  recvQCounts : List (String × SMASet)
  lastMaintTime : Int
  lastProcTime : Int
deriving DecidableEq, Repr

/-- Go `initMetrics()`: every fixed series empty over `SMAWindows`, no inbound-queue series,
both last-observed scalars zero. -/
def initMetrics : KernelMetrics :=
  { cycleTime := NewSMASet SMAWindows
    maintTime := NewSMASet SMAWindows
    maintTimePercent := NewSMASet SMAWindows
    genBlockTime := NewSMASet SMAWindows
    addBlockTime := NewSMASet SMAWindows
    confBlockTime := NewSMASet SMAWindows
    evalTime := NewSMASet SMAWindows
    computedProcTime := NewSMASet SMAWindows
    computedProcTimePercent := NewSMASet SMAWindows
    actualProcTime := NewSMASet SMAWindows
    actualProcTimePercent := NewSMASet SMAWindows
    blockQCount := NewSMASet SMAWindows
    recvQCounts := []
    lastMaintTime := 0
    lastProcTime := 0 }

/-- Sequential `sync.Map.Load`. -/
def mapLoad (m : List (String × SMASet)) (name : String) : Option SMASet :=
  (m.find? (fun e => e.1 == name)).map (fun e => e.2)

/-- Sequential `sync.Map.Store` on a key that is present: the entry is replaced in place. -/
def mapReplace (m : List (String × SMASet)) (name : String) (s : SMASet) :
    List (String × SMASet) :=
  m.map (fun e => if e.1 == name then (e.1, s) else e)

/-- Sequential `sync.Map.LoadOrStore(name, fresh)`: the existing series when the name is
present, otherwise `fresh` is stored under the name and returned. -/
def mapLoadOrStore (m : List (String × SMASet)) (name : String) (fresh : SMASet) :
    SMASet × List (String × SMASet) :=
  match mapLoad m name with
  | some s => (s, m)
  | none => (fresh, m ++ [(name, fresh)])

namespace KernelMetrics

/-- Go `setCycleTime(duration)`. -/
def setCycleTime (m : KernelMetrics) (duration : Int) : KernelMetrics :=
  let fdur := F64.ofInt duration
  let maintPercent := F64.div (F64.mul (F64.fin 100) (F64.ofInt m.lastMaintTime)) fdur
  let procPercent := F64.div (F64.mul (F64.fin 100) (F64.ofInt m.lastProcTime)) fdur
  { m with
    cycleTime := m.cycleTime.Add fdur
    maintTimePercent := m.maintTimePercent.Add maintPercent
    actualProcTimePercent := m.actualProcTimePercent.Add procPercent }

/-- Go `CycleTime()`. -/
def CycleTime (m : KernelMetrics) : List F64 := m.cycleTime.Avg

/-- Go `setMaintTime(duration)`. -/
def setMaintTime (m : KernelMetrics) (duration : Int) : KernelMetrics :=
  { m with maintTime := m.maintTime.Add (F64.ofInt duration), lastMaintTime := duration }

/-- Go `MaintTime()`. -/
def MaintTime (m : KernelMetrics) : List F64 := m.maintTime.Avg

/-- Go `setGenBlockTime(duration)`. -/
def setGenBlockTime (m : KernelMetrics) (duration : Int) : KernelMetrics :=
  { m with genBlockTime := m.genBlockTime.Add (F64.ofInt duration) }

/-- Go `GenBlockTime()`. -/
def GenBlockTime (m : KernelMetrics) : List F64 := m.genBlockTime.Avg

/-- Go `setAddBlockTime(duration)`. -/
def setAddBlockTime (m : KernelMetrics) (duration : Int) : KernelMetrics :=
  { m with addBlockTime := m.addBlockTime.Add (F64.ofInt duration) }

/-- Go `AddBlockTime()`. -/
def AddBlockTime (m : KernelMetrics) : List F64 := m.addBlockTime.Avg

/-- Go `setConfBlockTime(duration)`. -/
def setConfBlockTime (m : KernelMetrics) (duration : Int) : KernelMetrics :=
  { m with confBlockTime := m.confBlockTime.Add (F64.ofInt duration) }

/-- Go `ConfBlockTime()`. -/
def ConfBlockTime (m : KernelMetrics) : List F64 := m.confBlockTime.Avg

/-- Go `setEvalTime(duration)`. -/
def setEvalTime (m : KernelMetrics) (duration : Int) : KernelMetrics :=
  { m with evalTime := m.evalTime.Add (F64.ofInt duration) }

/-- Go `EvalTime()`. -/
def EvalTime (m : KernelMetrics) : List F64 := m.evalTime.Avg

/-- Go `setComputedProcTime(duration)`; `freq` is the value of `ktime.BlockFrequency()`. -/
def setComputedProcTime (m : KernelMetrics) (freq : F64) (duration : F64) : KernelMetrics :=
  let durPercent :=
    F64.div (F64.mul (F64.mul duration freq) (F64.fin 100)) (F64.ofInt Second)
  { m with
    computedProcTime := m.computedProcTime.Add duration
    computedProcTimePercent := m.computedProcTimePercent.Add durPercent }

/-- Go `ComputedProcTime()`. -/
def ComputedProcTime (m : KernelMetrics) : List F64 := m.computedProcTime.Avg

/-- Go `ComputedProcTimePercent()`. -/
def ComputedProcTimePercent (m : KernelMetrics) : List F64 := m.computedProcTimePercent.Avg

/-- Go `setActualProcTime(duration)`. -/
def setActualProcTime (m : KernelMetrics) (duration : Int) : KernelMetrics :=
  { m with actualProcTime := m.actualProcTime.Add (F64.ofInt duration), lastProcTime := duration }

/-- Go `ActualProcTime()`. -/
def ActualProcTime (m : KernelMetrics) : List F64 := m.actualProcTime.Avg

/-- Go `ActualProcTimePercent()`. -/
def ActualProcTimePercent (m : KernelMetrics) : List F64 := m.actualProcTimePercent.Avg

/-- Go `setBlockQCount(count)`. -/
def setBlockQCount (m : KernelMetrics) (count : Int) : KernelMetrics :=
  { m with blockQCount := m.blockQCount.Add (F64.ofInt count) }

/-- Go `BlockQCount()`. -/
def BlockQCount (m : KernelMetrics) : List F64 := m.blockQCount.Avg

/-- Go `getRecvQ(name)`: load-or-store of a fresh series; returns the series found or created
and the aggregator with the possibly extended map. -/
def getRecvQ (m : KernelMetrics) (name : String) : SMASet × KernelMetrics :=
  let r := mapLoadOrStore m.recvQCounts name (NewSMASet SMAWindows)
  (r.1, { m with recvQCounts := r.2 })

/-- Go `setRecvQCount(name, count)`: the series returned by `getRecvQ` is a pointer held by
the map, so adding to it updates the entry under `name`. -/
def setRecvQCount (m : KernelMetrics) (name : String) (count : Int) : KernelMetrics :=
  let r := m.getRecvQ name
  { r.2 with recvQCounts := mapReplace r.2.recvQCounts name (r.1.Add (F64.ofInt count)) }

/-- Go `RecvQCount(name)`: the averages of the series found or created, and the aggregator
after the lookup. -/
def RecvQCount (m : KernelMetrics) (name : String) : List F64 × KernelMetrics :=
  let r := m.getRecvQ name
  (r.1.Avg, r.2)

/-- Go `RecvQCounts()`: name and averages of every entry of the map. -/
def RecvQCounts (m : KernelMetrics) : List (String × List F64) :=
  m.recvQCounts.map (fun e => (e.1, e.2.Avg))

/-- Outcome of `computeProcTime()`: the aggregator afterwards, the returned duration, and
the magnitude `procTime * -1` written to the error log when the overrun branch is taken
(`none` when nothing is logged). -/
structure ProcTimeResult where
  metrics : KernelMetrics
  ret : Int
  overrun : Option F64
deriving DecidableEq, Repr

/-- The local `procTime` of `computeProcTime()`:
`float64(time.Second) / float64(ktime.BlockFrequency()) - m.MaintTime()[0]`. -/
def procTime (m : KernelMetrics) (t : KernelTime) : F64 :=
  let maintAvg := m.MaintTime.headD (F64.fin 0)
  F64.sub (F64.div (F64.ofInt Second) t.BlockFrequency) maintAvg

/-- Go `computeProcTime()`, reading the clock `t` (the global `ktime`). -/
def computeProcTime (m : KernelMetrics) (t : KernelTime) : ProcTimeResult :=
  let p := procTime m t
  let m1 := m.setComputedProcTime t.BlockFrequency p
  if F64.lt p (F64.fin 0) then
    { metrics := m1, ret := 0, overrun := some (F64.mul p (F64.fin (-1))) }
  else
    { metrics := m1, ret := F64.toInt64 p, overrun := none }

end KernelMetrics

/-! ## The package state and its operations -/

/-- The two package globals. -/
structure State where
  ktime : KernelTime
  metrics : KernelMetrics
deriving DecidableEq, Repr

/-- State after `initTime(freq); initMetrics()`. -/
def init (freq : F64) : State := { ktime := initTime freq, metrics := initMetrics }

/-- Go `KernelTime.startCycle()` with the wall clock `now`; it updates both globals. -/
def startCycle (k : State) (now : Int) : State :=
  let cycleTime := now - k.ktime.cycleStartTime
  { ktime := { k.ktime with
      cycleNumber := (k.ktime.cycleNumber + 1) % 2 ^ 64
      cycleStartTime := now }
    metrics := k.metrics.setCycleTime cycleTime }

/-- The state-changing operations of the package after initialisation. -/
inductive Op where
  | up (now : Int)
  | startCycle (now : Int)
  | setCycleTime (d : Int)
  | setMaintTime (d : Int)
  | setGenBlockTime (d : Int)
  | setAddBlockTime (d : Int)
  | setConfBlockTime (d : Int)
  | setEvalTime (d : Int)
  | setComputedProcTime (d : F64)
  | setActualProcTime (d : Int)
  | setBlockQCount (c : Int)
  | setRecvQCount (name : String) (c : Int)
  | RecvQCount (name : String)
  | computeProcTime
deriving DecidableEq, Repr

/-- Effect of one operation on the state. -/
def step (k : State) : Op → State
  | .up now => { k with ktime := k.ktime.up now }
  | .startCycle now => startCycle k now
  | .setCycleTime d => { k with metrics := k.metrics.setCycleTime d }
  | .setMaintTime d => { k with metrics := k.metrics.setMaintTime d }
  | .setGenBlockTime d => { k with metrics := k.metrics.setGenBlockTime d }
  | .setAddBlockTime d => { k with metrics := k.metrics.setAddBlockTime d }
  | .setConfBlockTime d => { k with metrics := k.metrics.setConfBlockTime d }
  | .setEvalTime d => { k with metrics := k.metrics.setEvalTime d }
  | .setComputedProcTime d =>
      { k with metrics := k.metrics.setComputedProcTime k.ktime.BlockFrequency d }
  | .setActualProcTime d => { k with metrics := k.metrics.setActualProcTime d }
  | .setBlockQCount c => { k with metrics := k.metrics.setBlockQCount c }
  | .setRecvQCount name c => { k with metrics := k.metrics.setRecvQCount name c }
  | .RecvQCount name => { k with metrics := (k.metrics.RecvQCount name).2 }
  | .computeProcTime => { k with metrics := (k.metrics.computeProcTime k.ktime).metrics }

/-- Effect of a sequence of operations, first operation first. -/
def run (k : State) (ops : List Op) : State := ops.foldl step k

/-- Go `metrics.computeProcTime()` evaluated on the package state. -/
def State.computeProcTime (k : State) : KernelMetrics.ProcTimeResult :=
  k.metrics.computeProcTime k.ktime

/-- The first-window maintenance average `m.MaintTime()[0]` of the package state. -/
def State.maintAvg (k : State) : F64 := k.metrics.MaintTime.headD (F64.fin 0)

/-- The untruncated target interval `float64(time.Second) / ktime.BlockFrequency()`. -/
def State.floatInterval (k : State) : F64 := F64.div (F64.ofInt Second) k.ktime.BlockFrequency

/-- Scenario state: frequency 2.0, one maintenance time of 100 ms recorded. -/
def scenarioFirst : State := run (init (F64.fin 2)) [.setMaintTime 100000000]

/-- Scenario state: as `scenarioFirst`, then a budget computation and a maintenance time
of 600 ms. -/
def scenarioSecond : State :=
  run (init (F64.fin 2)) [.setMaintTime 100000000, .computeProcTime, .setMaintTime 600000000]

/-- Scenario state: frequency 2.0, a single maintenance time of 600 ms recorded. -/
def scenarioOverrun : State := run (init (F64.fin 2)) [.setMaintTime 600000000]

/-- State at the frequency `2 ^ -34` (one cycle in about 544 years) with one maintenance
time of 1 ns recorded. -/
def overflowState : State := run (init (F64.fin (1 / 17179869184))) [.setMaintTime 1]

/-- State at frequency 1.5 whose two maintenance samples average 666,666,666.5 ns. -/
def fractionalState : State :=
  run (init (F64.fin (3 / 2))) [.setMaintTime 666666666, .setMaintTime 666666667]

/-- Whether an operation is a call of `startCycle()`. -/
def Op.isStartCycle : Op → Bool
  | .startCycle _ => true
  | _ => false

/-- Number of calls of `startCycle()` in a sequence of operations. -/
def cycleStarts (ops : List Op) : Nat := (ops.filter Op.isStartCycle).length

/-- The argument of an operation that is a call of `setMaintTime`. -/
def Op.maintArg : Op → Option Int
  | .setMaintTime d => some d
  | _ => none

/-- The argument of an operation that is a call of `setActualProcTime`. -/
def Op.procArg : Op → Option Int
  | .setActualProcTime d => some d
  | _ => none

/-- The value most recently passed to `setMaintTime` in a sequence of operations, `0` when
it was never called. -/
def lastMaintArg (ops : List Op) : Int := (ops.filterMap Op.maintArg).getLastD 0

/-- The value most recently passed to `setActualProcTime` in a sequence of operations, `0`
when it was never called. -/
def lastProcArg (ops : List Op) : Int := (ops.filterMap Op.procArg).getLastD 0

/-- State after `initTime(2.0)`, `initMetrics()` and activation `up()` at the wall-clock
instant 1,700,000,000,000,000,000 ns. -/
def activatedState : State := run (init (F64.fin 2)) [.up 1700000000000000000]

/-- Whether an operation is a call of `setRecvQCount` under the given name. -/
def Op.isRecvFor (name : String) : Op → Bool
  | .setRecvQCount n _ => n == name
  | _ => false

/-- Number of recordings made under a name by a sequence of operations. -/
def recvRecordings (name : String) (ops : List Op) : Nat :=
  (ops.filter (Op.isRecvFor name)).length

/-- Number of samples held under a name in the inbound-queue collection (0 when the name
is absent). -/
def samplesUnder (m : KernelMetrics) (name : String) : Nat :=
  ((mapLoad m.recvQCounts name).map (fun s => s.samples.length)).getD 0

/-! ## Text output -/

/-- Go `leftPadZeroes(val, overallLen)`; `none` stands for a run-time panic (a slice bound
or a repeat count below zero). The string `v` of `fmt.Sprintf("%d", val)` is handled as
its list of characters, one byte each. -/
def leftPadZeroes (val : Int) (overallLen : Int) : Option String :=
  let v : List Char := (toString val).toList
  let sliced : Option (List Char) :=
    if (v.length : Int) > overallLen then
      (if overallLen < 0 then none else some (v.take overallLen.toNat))
    else some v
  sliced.bind (fun v1 =>
    if overallLen - (v1.length : Int) < 0 then none
    else some (String.mk (List.replicate (overallLen - (v1.length : Int)).toNat '0' ++ v1)))

/-- Conversion `int64(n)` of a `uint64` value. -/
def uint64ToInt64 (n : Nat) : Int := if n < 2 ^ 63 then (n : Int) else (n : Int) - 2 ^ 64

/-- The formatting routines of external packages used by the two reports:
`humanize.Comma`, the `%v` rendering of one `float64` by package `fmt`, and
`time.Duration.String`. -/
structure Formatters where
  comma : Int → String
  float : F64 → String
  duration : Int → String

/-- Rendering `%v` of a `[]float64`: the elements separated by blanks, in brackets. -/
def Formatters.floats (f : Formatters) (xs : List F64) : String :=
  "[" ++ " ".intercalate (xs.map f.float) ++ "]"

/-- Rendering `%v` of a `[]int`. -/
def fmtInts (xs : List Nat) : String :=
  "[" ++ " ".intercalate (xs.map toString) ++ "]"

/-- Go `KernelTime.String()` with the wall clock `now`: the cycle number with thousands
separators, a dot, and the microsecond offset into the current cycle padded by
`leftPadZeroes(cycleTime, 6)`. -/
def KernelTime.String (f : Formatters) (t : KernelTime) (now : Int) : Option String :=
  let scycle := f.comma (uint64ToInt64 t.CycleNumber)
  let cycleTime := Int.tdiv (now - t.cycleStartTime) 1000
  (leftPadZeroes cycleTime 6).map (fun p => scycle ++ "." ++ p)

/-- The lines of the report for the inbound-queue collection, in the order of the
entries (Go ranges over the map in an unspecified order). -/
def recvQLines (f : Formatters) (rqcs : List (String × List F64)) : String :=
  rqcs.foldl (fun acc e => acc ++ "  " ++ e.1 ++ ": " ++ f.floats e.2 ++ "\n") ""

/-- Go `KernelMetrics.String()`, reading the clock `t`; `now` is the wall clock at the call
of `ktime.String()` and `now2` the wall clock at the call of `ktime.UpTime()`. -/
def KernelMetrics.String (f : Formatters) (m : KernelMetrics) (t : KernelTime)
    (now now2 : Int) : Option String :=
  (t.String f now).map (fun ks =>
    "Kernel time (cycle.nanos): " ++ ks ++ "\n" ++
    "Kernel uptime (duration): " ++ f.duration (t.UpTime now2) ++ "\n" ++
    "Moving average windows (num blocks): " ++ fmtInts SMAWindows ++ "\n" ++
    "Block queue count: " ++ f.floats m.BlockQCount ++ "\n" ++
    "Receive queue count:\n" ++
    recvQLines f m.RecvQCounts ++
    "--- Cycles ---\n" ++
    "Cycle number: " ++ toString t.CycleNumber ++ "\n" ++
    "Configured cycle time (block interval): " ++ f.duration t.BlockInterval ++ "\n" ++
    "Actual cycle time (ns): " ++ f.floats m.CycleTime ++ "\n" ++
    "--- Process Timeslice ---\n" ++
    "Process timeslice time (ns): " ++ f.floats m.ActualProcTime ++ "\n" ++
    "Process timeslice % of block interval: " ++ f.floats m.ActualProcTimePercent ++ "\n" ++
    "Scheduled process timeslice time (ns): " ++ f.floats m.ComputedProcTime ++ "\n" ++
    "Scheduled proccess timeslice % of block interval: " ++
      f.floats m.ComputedProcTimePercent ++ "\n" ++
    "Block generation time (ns): " ++ f.floats m.GenBlockTime ++ "\n" ++
    "Block add performance (ns): " ++ f.floats m.AddBlockTime ++ "\n" ++
    "--- Maintenance Timeslice ---\n" ++
    "Maintenance timesclice time (ns): " ++ f.floats m.MaintTime ++ "\n" ++
    "Maintenance timesclice % of block interval: " ++ f.floats m.MaintTime ++ "\n" ++
    "Block confirmation time (ns): " ++ f.floats m.ConfBlockTime ++ "\n" ++
    "Head block evaluation time (ns): " ++ f.floats m.ConfBlockTime ++ "\n")

/-- Whether an operation is a direct call of `setCycleTime`. -/
def Op.isSetCycleTime : Op → Bool
  | .setCycleTime _ => true
  | _ => false

/-- A formatter set for evaluation: plain decimal integers, and for a float its integral
part in decimal (`NaN`, `+Inf`, `-Inf` for the special values). -/
def plainFormatters : Formatters :=
  { comma := fun n => toString n
    float := fun x =>
      match x with
      | F64.fin q => toString (Int.tdiv q.num (q.den : Int))
      | F64.pinf => "+Inf"
      | F64.ninf => "-Inf"
      | F64.nan => "NaN"
    duration := fun n => toString n ++ "ns" }

/-! ## Properties -/

theorem F64.lt_sub_zero (a b : F64) : F64.lt (F64.sub a b) (F64.fin 0) = F64.lt a b := by
  cases a <;> cases b <;> simp [F64.sub, F64.neg, F64.add, F64.lt]

theorem F64.trunc_of_nonneg (q : ℚ) (h : 0 ≤ q) : F64.trunc q = ⌊q⌋ := by
  simp only [F64.trunc]
  rw [Int.tdiv_eq_ediv (Rat.num_nonneg.mpr h) (Int.ofNat_nonneg _), ← Rat.floor_def']
  rfl

theorem F64.trunc_of_nonpos (q : ℚ) (h : q ≤ 0) : F64.trunc q = -⌊-q⌋ := by
  have h1 := F64.trunc_of_nonneg (-q) (by linarith)
  simp only [F64.trunc, Rat.neg_num, Rat.neg_den, Int.neg_tdiv] at h1 ⊢
  omega

theorem F64.toInt64_fin_nonneg (q : ℚ) (h : 0 ≤ q) (h2 : q < 2 ^ 63) :
    0 ≤ F64.toInt64 (F64.fin q) := by
  have h0 : (0 : Int) ≤ ⌊q⌋ := Int.floor_nonneg.mpr h
  have h3 : ⌊q⌋ < 2 ^ 63 := Int.floor_lt.mpr (by exact_mod_cast h2)
  simp only [F64.toInt64, F64.trunc_of_nonneg q h]
  rw [if_pos ⟨by omega, h3⟩]
  exact h0

theorem F64.toInt64_fin_eq (q : ℚ) (z : Int) (h0 : 0 ≤ q) (h1 : (z : ℚ) ≤ q)
    (h2 : q < (z : ℚ) + 1) (hz : z < 2 ^ 63) : F64.toInt64 (F64.fin q) = z := by
  have hf : ⌊q⌋ = z := Int.floor_eq_iff.mpr ⟨h1, h2⟩
  have hz0 : (0 : Int) ≤ z := by rw [← hf]; exact Int.floor_nonneg.mpr h0
  simp only [F64.toInt64, F64.trunc_of_nonneg q h0, hf]
  rw [if_pos ⟨by omega, hz⟩]

theorem F64.toInt64_fin_overflow (q : ℚ) (h : 2 ^ 63 ≤ q) :
    F64.toInt64 (F64.fin q) = -(2 ^ 63) := by
  have h0 : (0 : ℚ) ≤ q := le_trans (by norm_num) h
  have h3 : (2 : Int) ^ 63 ≤ ⌊q⌋ := Int.le_floor.mpr (by exact_mod_cast h)
  simp only [F64.toInt64, F64.trunc_of_nonneg q h0]
  rw [if_neg (by omega)]

theorem F64.toInt64_fin_nonpos (q : ℚ) (h : q ≤ 0) (h2 : -(2 ^ 63) ≤ q) :
    F64.toInt64 (F64.fin q) = -⌊-q⌋ := by
  have h0 : (0 : Int) ≤ ⌊-q⌋ := Int.floor_nonneg.mpr (by linarith)
  have h3 : ⌊-q⌋ ≤ 2 ^ 63 := by
    have h4 : ⌊-q⌋ ≤ ⌊((2 ^ 63 : Int) : ℚ)⌋ := Int.floor_mono (by push_cast; linarith)
    rwa [Int.floor_intCast] at h4
  simp only [F64.toInt64, F64.trunc_of_nonpos q h]
  rw [if_pos ⟨by omega, by omega⟩]

theorem F64.toInt64_le_zero (q : ℚ) (h : q ≤ 0) : F64.toInt64 (F64.fin q) ≤ 0 := by
  have h0 : (0 : Int) ≤ ⌊-q⌋ := Int.floor_nonneg.mpr (by linarith)
  simp only [F64.toInt64, F64.trunc_of_nonpos q h]
  split <;> omega

theorem F64.toInt64_neg (q : ℚ) (h : q ≤ -1) : F64.toInt64 (F64.fin q) < 0 := by
  have h0 : (1 : Int) ≤ ⌊-q⌋ := Int.le_floor.mpr (by push_cast; linarith)
  simp only [F64.toInt64, F64.trunc_of_nonpos q (by linarith)]
  split <;> omega

theorem SMASet.sum_fin_aux (xs : List F64) (h : ∀ x ∈ xs, x.isFinite = true) (a : ℚ) :
    ∃ q : ℚ, xs.foldl F64.add (F64.fin a) = F64.fin q := by
  induction xs generalizing a with
  | nil => exact ⟨a, rfl⟩
  | cons x xs ih =>
    have hx := h x (List.mem_cons_self _ _)
    cases x with
    | fin b =>
      simp only [List.foldl_cons, F64.add]
      exact ih (fun y hy => h y (List.mem_cons_of_mem _ hy)) (a + b)
    | pinf => simp [F64.isFinite] at hx
    | ninf => simp [F64.isFinite] at hx
    | nan => simp [F64.isFinite] at hx

theorem SMASet.mean_fin (xs : List F64) (h : ∀ x ∈ xs, x.isFinite = true) :
    ∃ q : ℚ, SMASet.mean xs = F64.fin q := by
  unfold SMASet.mean
  cases xs with
  | nil => exact ⟨0, by simp⟩
  | cons x xs =>
    obtain ⟨s, hs⟩ := SMASet.sum_fin_aux (x :: xs) h 0
    simp only [List.isEmpty_cons, Bool.false_eq_true, if_false, SMASet.sum, hs, F64.ofInt, F64.div]
    have : ((((x :: xs).length : Nat) : Int) : ℚ) ≠ 0 := by
      simp only [List.length_cons]; push_cast; positivity
    rw [if_neg this]
    exact ⟨_, rfl⟩

theorem SMASet.avg_head_fin (s : SMASet) (h : ∀ x ∈ s.samples, x.isFinite = true) :
    ∃ q : ℚ, s.Avg.headD (F64.fin 0) = F64.fin q := by
  unfold SMASet.Avg
  cases hw : s.windows with
  | nil => exact ⟨0, rfl⟩
  | cons w ws =>
    simp only [List.map_cons, List.headD_cons]
    apply SMASet.mean_fin
    intro x hx
    exact h x (List.mem_of_mem_drop hx)


theorem step_blockFrequency (k : State) (op : Op) :
    (step k op).ktime.blockFrequency = k.ktime.blockFrequency := by
  cases op <;> rfl

theorem run_blockFrequency (ops : List Op) (k : State) :
    (run k ops).ktime.blockFrequency = k.ktime.blockFrequency := by
  induction ops generalizing k with
  | nil => rfl
  | cons op ops ih =>
    show (run (step k op) ops).ktime.blockFrequency = _
    rw [ih, step_blockFrequency]

theorem step_blockInterval (k : State) (op : Op) :
    (step k op).ktime.blockInterval = k.ktime.blockInterval := by
  cases op <;> rfl

theorem run_blockInterval (ops : List Op) (k : State) :
    (run k ops).ktime.blockInterval = k.ktime.blockInterval := by
  induction ops generalizing k with
  | nil => rfl
  | cons op ops ih =>
    show (run (step k op) ops).ktime.blockInterval = _
    rw [ih, step_blockInterval]

theorem step_maintTime_finite (k : State) (op : Op)
    (h : ∀ x ∈ k.metrics.maintTime.samples, x.isFinite = true) :
    ∀ x ∈ (step k op).metrics.maintTime.samples, x.isFinite = true := by
  cases op <;>
    simp only [step, startCycle, KernelMetrics.setCycleTime, KernelMetrics.setMaintTime,
      KernelMetrics.setGenBlockTime, KernelMetrics.setAddBlockTime,
      KernelMetrics.setConfBlockTime, KernelMetrics.setEvalTime,
      KernelMetrics.setComputedProcTime, KernelMetrics.setActualProcTime,
      KernelMetrics.setBlockQCount, KernelMetrics.setRecvQCount, KernelMetrics.RecvQCount,
      KernelMetrics.getRecvQ, KernelMetrics.computeProcTime] <;>
    try exact h
  · intro x hx
    simp only [SMASet.Add, List.mem_append, List.mem_singleton] at hx
    rcases hx with hx | hx
    · exact h x hx
    · subst hx; rfl
  · split <;> exact h

theorem run_maintTime_finite (ops : List Op) (k : State)
    (h : ∀ x ∈ k.metrics.maintTime.samples, x.isFinite = true) :
    ∀ x ∈ (run k ops).metrics.maintTime.samples, x.isFinite = true := by
  induction ops generalizing k with
  | nil => exact h
  | cons op ops ih => exact ih (step k op) (step_maintTime_finite k op h)

theorem init_maintTime_finite (freq : F64) :
    ∀ x ∈ (init freq).metrics.maintTime.samples, x.isFinite = true := by
  intro x hx
  simp [init, initMetrics, NewSMASet] at hx

theorem computeProcTime_metrics (m : KernelMetrics) (t : KernelTime) :
    (m.computeProcTime t).metrics = m.setComputedProcTime t.BlockFrequency (m.procTime t) := by
  simp only [KernelMetrics.computeProcTime]
  split <;> rfl

theorem computeProcTime_neg (m : KernelMetrics) (t : KernelTime) (p : ℚ)
    (hp : m.procTime t = F64.fin p) (h : p < 0) :
    (m.computeProcTime t).ret = 0 ∧ (m.computeProcTime t).overrun = some (F64.fin (-p)) := by
  simp [KernelMetrics.computeProcTime, hp, F64.lt, h, F64.mul]

theorem computeProcTime_pos (m : KernelMetrics) (t : KernelTime) (p : ℚ) (z : Int)
    (hp : m.procTime t = F64.fin p) (h0 : 0 ≤ p) (h1 : (z : ℚ) ≤ p) (h2 : p < (z : ℚ) + 1)
    (hz : z < 2 ^ 63) :
    (m.computeProcTime t).ret = z ∧ (m.computeProcTime t).overrun = none := by
  simp [KernelMetrics.computeProcTime, hp, F64.lt, not_lt.mpr h0,
    F64.toInt64_fin_eq p z h0 h1 h2 hz]

theorem procTime_eq (k : State) :
    k.metrics.procTime k.ktime = F64.sub k.floatInterval k.maintAvg := rfl

/-- In every reachable state with a positive finite frequency the first-window maintenance
average and the local `procTime` of `computeProcTime` are finite. -/
theorem procTime_fin (f : ℚ) (hf : 0 < f) (ops : List Op) :
    ∃ a : ℚ, (run (init (F64.fin f)) ops).maintAvg = F64.fin a ∧
      (run (init (F64.fin f)) ops).metrics.procTime (run (init (F64.fin f)) ops).ktime
        = F64.fin (1000000000 / f - a) := by
  obtain ⟨a, ha⟩ := SMASet.avg_head_fin (run (init (F64.fin f)) ops).metrics.maintTime
    (run_maintTime_finite ops _ (init_maintTime_finite _))
  refine ⟨a, ha, ?_⟩
  have hfreq : (run (init (F64.fin f)) ops).ktime.blockFrequency = F64.fin f := by
    rw [run_blockFrequency]; rfl
  have ha2 : (run (init (F64.fin f)) ops).metrics.maintTime.Avg.headD (F64.fin 0)
      = F64.fin a := ha
  simp only [KernelMetrics.procTime, KernelMetrics.MaintTime, KernelTime.BlockFrequency, hfreq,
    ha2, F64.ofInt, F64.div, F64.sub, F64.neg, F64.add, Second, if_neg (ne_of_gt hf)]
  congr 1
  push_cast
  ring

/-! ### The scheduled processing budget -/

theorem computeProcTime_ret_of_nonneg (m : KernelMetrics) (t : KernelTime) (p : ℚ)
    (hp : m.procTime t = F64.fin p) (h0 : 0 ≤ p) :
    (m.computeProcTime t).ret = F64.toInt64 (F64.fin p) := by
  simp [KernelMetrics.computeProcTime, hp, F64.lt, not_lt.mpr h0]

/-- C1 (counterexample): at the positive frequency `2 ^ -34`, after `setMaintTime(1)`, the
budget `17179869184000000000 - 1` ns lies beyond the `int64` range and `computeProcTime`
returns the negative duration `-2 ^ 63`. -/
theorem computeProcTime_overflow_negative :
    ¬ (0 ≤ overflowState.computeProcTime.ret) := by
  have hp : overflowState.metrics.procTime overflowState.ktime =
      F64.fin 17179869183999999999 := by
    simp [overflowState, run, step, init, initMetrics, initTime, NewSMASet,
      KernelMetrics.setMaintTime, KernelMetrics.procTime, KernelMetrics.MaintTime, SMASet.Avg,
      SMAWindows, SMASet.Add, SMASet.mean, SMASet.sum, SMASet.lastWindow, F64.ofInt, F64.add,
      F64.sub, F64.div, F64.neg, KernelTime.setBlockFrequency, KernelTime.BlockFrequency,
      Second, KernelTime.zero]
    norm_num
  have hr : overflowState.computeProcTime.ret = -(2 ^ 63) := by
    have h1 := computeProcTime_ret_of_nonneg overflowState.metrics overflowState.ktime _ hp
      (by norm_num)
    rw [F64.toInt64_fin_overflow _ (by norm_num)] at h1
    exact h1
  rw [hr]
  norm_num

/-- C1 (amended): for every positive configured frequency `f` and every sequence of
operations run from the initial state such that the budget
`float64(time.Second) / f - MaintTime()[0]` is below `2 ^ 63` ns (it fits a
`time.Duration`), `computeProcTime` returns a duration that is at least zero, and
whenever that budget is negative it returns exactly zero. -/
theorem computeProcTime_nonneg (f : ℚ) (hf : 0 < f) (ops : List Op)
    (hr : F64.lt (F64.sub (F64.div (F64.ofInt Second) (F64.fin f))
        (run (init (F64.fin f)) ops).maintAvg) (F64.fin (2 ^ 63)) = true) :
    0 ≤ (run (init (F64.fin f)) ops).computeProcTime.ret ∧
    (F64.lt (F64.sub (F64.div (F64.ofInt Second) (F64.fin f))
        (run (init (F64.fin f)) ops).maintAvg) (F64.fin 0) = true →
      (run (init (F64.fin f)) ops).computeProcTime.ret = 0) := by
  obtain ⟨a, _, hp⟩ := procTime_fin f hf ops
  have hfreq : (run (init (F64.fin f)) ops).ktime.blockFrequency = F64.fin f := by
    rw [run_blockFrequency]; rfl
  have hp2 : (run (init (F64.fin f)) ops).metrics.procTime (run (init (F64.fin f)) ops).ktime
      = F64.sub (F64.div (F64.ofInt Second) (F64.fin f))
          (run (init (F64.fin f)) ops).maintAvg := by
    rw [procTime_eq, State.floatInterval, KernelTime.BlockFrequency, hfreq]
  have hlt : 1000000000 / f - a < 2 ^ 63 := by
    rw [← hp2, hp] at hr
    simpa [F64.lt] using hr
  constructor
  · simp only [State.computeProcTime, KernelMetrics.computeProcTime, hp, F64.lt]
    split
    · exact le_refl _
    · rename_i h
      simp only [decide_eq_true_eq, not_lt] at h
      exact F64.toInt64_fin_nonneg _ h hlt
  · intro h
    simp only [State.computeProcTime, KernelMetrics.computeProcTime, hp2, h, if_true]

/-- Witness for C1 at frequency 2.0 after one maintenance time of 600 ms: the budget is
negative and the returned duration is zero. -/
theorem computeProcTime_nonneg_witness :
    (0 : ℚ) < 2 ∧ 0 ≤ (run (init (F64.fin 2)) [.setMaintTime 600000000]).computeProcTime.ret ∧
    (run (init (F64.fin 2)) [.setMaintTime 600000000]).computeProcTime.ret = 0 := by
  have hb : F64.sub (F64.div (F64.ofInt Second) (F64.fin 2))
      (run (init (F64.fin 2)) [.setMaintTime 600000000]).maintAvg = F64.fin (-100000000) := by
    simp [State.maintAvg, run, step, init, initMetrics, NewSMASet,
      KernelMetrics.setMaintTime, KernelMetrics.MaintTime, SMASet.Avg, SMAWindows,
      SMASet.Add, SMASet.mean, SMASet.sum, SMASet.lastWindow, F64.ofInt, F64.add, F64.sub,
      F64.div, F64.neg, Second]
    norm_num
  have h := computeProcTime_nonneg 2 (by norm_num) [.setMaintTime 600000000]
    (by rw [hb]; simp [F64.lt]; norm_num)
  exact ⟨by norm_num, h.1, h.2 (by rw [hb]; simp [F64.lt])⟩

theorem scenarioFirst_procTime :
    scenarioFirst.metrics.procTime scenarioFirst.ktime = F64.fin 400000000 := by
  simp [scenarioFirst, run, step, init, initMetrics, initTime, NewSMASet,
    KernelMetrics.setMaintTime, KernelMetrics.procTime, KernelMetrics.MaintTime, SMASet.Avg,
    SMAWindows, SMASet.Add, SMASet.mean, SMASet.sum, SMASet.lastWindow, F64.ofInt, F64.add,
    F64.sub, F64.div, F64.neg, KernelTime.setBlockFrequency, KernelTime.BlockFrequency, Second,
    KernelTime.zero]
  norm_num

theorem scenarioSecond_procTime :
    scenarioSecond.metrics.procTime scenarioSecond.ktime = F64.fin 150000000 := by
  simp [scenarioSecond, run, step, init, initMetrics, initTime, NewSMASet,
    KernelMetrics.setMaintTime, computeProcTime_metrics, KernelMetrics.setComputedProcTime,
    KernelMetrics.procTime, KernelMetrics.MaintTime, SMASet.Avg, SMAWindows, SMASet.Add,
    SMASet.mean, SMASet.sum, SMASet.lastWindow, F64.ofInt, F64.add, F64.sub, F64.div, F64.neg,
    KernelTime.setBlockFrequency, KernelTime.BlockFrequency, Second, KernelTime.zero]
  norm_num

theorem scenarioOverrun_procTime :
    scenarioOverrun.metrics.procTime scenarioOverrun.ktime = F64.fin (-100000000) := by
  simp [scenarioOverrun, run, step, init, initMetrics, initTime, NewSMASet,
    KernelMetrics.setMaintTime, KernelMetrics.procTime, KernelMetrics.MaintTime, SMASet.Avg,
    SMAWindows, SMASet.Add, SMASet.mean, SMASet.sum, SMASet.lastWindow, F64.ofInt, F64.add,
    F64.sub, F64.div, F64.neg, KernelTime.setBlockFrequency, KernelTime.BlockFrequency, Second,
    KernelTime.zero]
  norm_num

/-- C2 (counterexample): in the scenario at frequency 2.0, after the maintenance times
100 ms and 600 ms the second budget computation does not return 0 with an overrun of
100 ms, so the scenario as stated does not hold. -/
theorem scenario_as_stated_fails :
    ¬ (scenarioFirst.computeProcTime.ret = 400000000 ∧
       scenarioFirst.computeProcTime.overrun = none ∧
       scenarioSecond.computeProcTime.ret = 0 ∧
       scenarioSecond.computeProcTime.overrun = some (F64.fin 100000000)) := by
  intro h
  have h2 := (computeProcTime_pos scenarioSecond.metrics scenarioSecond.ktime 150000000
    150000000 scenarioSecond_procTime (by norm_num) (by norm_num) (by norm_num) (by norm_num)).1
  have h3 : scenarioSecond.computeProcTime.ret = 150000000 := h2
  rw [h3] at h
  exact absurd h.2.2.1 (by norm_num)

/-- C2 (amended): at frequency 2.0 the first budget, after a maintenance time of 100 ms,
is 400 ms without overrun; after a further maintenance time of 600 ms the first-window
average is 350 ms and the budget is 150 ms, again without overrun; with 600 ms as the only
recorded maintenance time the budget is 0 and an overrun of 100 ms is logged. -/
theorem scenario_budgets :
    scenarioFirst.computeProcTime.ret = 400000000 ∧
    scenarioFirst.computeProcTime.overrun = none ∧
    scenarioSecond.maintAvg = F64.fin 350000000 ∧
    scenarioSecond.computeProcTime.ret = 150000000 ∧
    scenarioSecond.computeProcTime.overrun = none ∧
    scenarioOverrun.computeProcTime.ret = 0 ∧
    scenarioOverrun.computeProcTime.overrun = some (F64.fin 100000000) := by
  have h1 := computeProcTime_pos scenarioFirst.metrics scenarioFirst.ktime 400000000
    400000000 scenarioFirst_procTime (by norm_num) (by norm_num) (by norm_num) (by norm_num)
  have h2 := computeProcTime_pos scenarioSecond.metrics scenarioSecond.ktime 150000000
    150000000 scenarioSecond_procTime (by norm_num) (by norm_num) (by norm_num) (by norm_num)
  have h3 := computeProcTime_neg scenarioOverrun.metrics scenarioOverrun.ktime (-100000000)
    scenarioOverrun_procTime (by norm_num)
  have h4 : scenarioSecond.maintAvg = F64.fin 350000000 := by
    simp [scenarioSecond, State.maintAvg, run, step, init, initMetrics, NewSMASet,
      KernelMetrics.setMaintTime, computeProcTime_metrics, KernelMetrics.setComputedProcTime,
      KernelMetrics.MaintTime, SMASet.Avg, SMAWindows, SMASet.Add, SMASet.mean, SMASet.sum,
      SMASet.lastWindow, F64.ofInt, F64.add, F64.div]
    norm_num
  refine ⟨h1.1, h1.2, h4, h2.1, h2.2, h3.1, ?_⟩
  have h5 := h3.2
  simp only [neg_neg] at h5
  exact h5

/-- C3 (counterexample): at frequency 1.5 the block interval is 666,666,666 ns; with the
maintenance samples 666,666,666 and 666,666,667 the first-window average 666,666,666.5
exceeds `BlockInterval()`, yet `computeProcTime` does not take the overrun branch. -/
theorem overrun_not_iff_exceeds_blockInterval :
    ¬ (fractionalState.computeProcTime.overrun ≠ none ↔
        F64.lt (F64.ofInt fractionalState.ktime.BlockInterval) fractionalState.maintAvg
          = true) := by
  have hp : fractionalState.metrics.procTime fractionalState.ktime = F64.fin (1 / 6) := by
    simp [fractionalState, run, step, init, initMetrics, initTime, NewSMASet,
      KernelMetrics.setMaintTime, KernelMetrics.procTime, KernelMetrics.MaintTime, SMASet.Avg,
      SMAWindows, SMASet.Add, SMASet.mean, SMASet.sum, SMASet.lastWindow, F64.ofInt, F64.add,
      F64.sub, F64.div, F64.neg, KernelTime.setBlockFrequency, KernelTime.BlockFrequency,
      Second, KernelTime.zero]
    norm_num
  have h1 : fractionalState.computeProcTime.overrun = none :=
    (computeProcTime_pos fractionalState.metrics fractionalState.ktime (1 / 6) 0 hp
      (by norm_num) (by norm_num) (by norm_num) (by norm_num)).2
  have hi : fractionalState.ktime.BlockInterval = 666666666 := by
    have : F64.toInt64 (F64.fin (2000000000 / 3)) = 666666666 :=
      F64.toInt64_fin_eq _ _ (by norm_num) (by norm_num) (by norm_num) (by norm_num)
    simp [fractionalState, run_blockInterval, init, initTime, KernelTime.setBlockFrequency,
      KernelTime.BlockInterval, F64.ofInt, F64.div, Second, KernelTime.zero]
    rw [← this]
    norm_num
  have ha : fractionalState.maintAvg = F64.fin (1333333333 / 2) := by
    simp [fractionalState, State.maintAvg, run, step, init, initMetrics, NewSMASet,
      KernelMetrics.setMaintTime, KernelMetrics.MaintTime, SMASet.Avg, SMAWindows, SMASet.Add,
      SMASet.mean, SMASet.sum, SMASet.lastWindow, F64.ofInt, F64.add, F64.div]
    norm_num
  intro h
  have h2 : F64.lt (F64.ofInt fractionalState.ktime.BlockInterval) fractionalState.maintAvg
      = true := by
    rw [hi, ha]
    simp [F64.ofInt, F64.lt]
    norm_num
  exact (h.mpr h2) h1

/-- C3 (amended): in every state `computeProcTime` takes the overrun branch (logs the
diagnostic, and then returns 0) if and only if the first-window maintenance average is
strictly greater than the untruncated target interval
`float64(time.Second) / BlockFrequency()`. -/
theorem overrun_iff_exceeds_floatInterval (k : State) :
    (k.computeProcTime.overrun ≠ none ↔ F64.lt k.floatInterval k.maintAvg = true) ∧
    (k.computeProcTime.overrun = none ∨ k.computeProcTime.ret = 0) := by
  have hlt : F64.lt (k.metrics.procTime k.ktime) (F64.fin 0) = F64.lt k.floatInterval k.maintAvg := by
    rw [procTime_eq, F64.lt_sub_zero]
  simp only [State.computeProcTime, KernelMetrics.computeProcTime, hlt]
  cases h : F64.lt k.floatInterval k.maintAvg <;> simp

/-- C4 (counterexample): at frequency 1.5 (block interval 666,666,666 ns) with the
maintenance samples 666,666,666 and 666,666,667, the sample appended to the
computed-processing-time series is `1 / 6`, not `BlockInterval()` minus the maintenance
average (which would be `-1 / 2`). -/
theorem budget_sample_not_from_blockInterval :
    ¬ (fractionalState.computeProcTime.metrics.computedProcTime.samples =
        fractionalState.metrics.computedProcTime.samples ++
          [F64.sub (F64.ofInt fractionalState.ktime.BlockInterval) fractionalState.maintAvg]) := by
  have hi : fractionalState.ktime.BlockInterval = 666666666 := by
    have : F64.toInt64 (F64.fin (2000000000 / 3)) = 666666666 :=
      F64.toInt64_fin_eq _ _ (by norm_num) (by norm_num) (by norm_num) (by norm_num)
    simp [fractionalState, run_blockInterval, init, initTime, KernelTime.setBlockFrequency,
      KernelTime.BlockInterval, F64.ofInt, F64.div, Second, KernelTime.zero]
    rw [← this]
    norm_num
  rw [hi]
  simp [fractionalState, State.computeProcTime, State.maintAvg, computeProcTime_metrics,
    KernelMetrics.setComputedProcTime, KernelMetrics.procTime, KernelMetrics.MaintTime,
    KernelMetrics.setMaintTime, run, step, init, initMetrics, initTime, NewSMASet, SMASet.Avg,
    SMAWindows, SMASet.Add, SMASet.mean, SMASet.sum, SMASet.lastWindow, F64.ofInt, F64.add,
    F64.sub, F64.div, F64.neg, KernelTime.setBlockFrequency, KernelTime.BlockFrequency,
    Second, KernelTime.zero]
  norm_num

/-- C4 (amended): every call of `computeProcTime` appends exactly one sample to the
computed-processing-time series, the budget
`float64(time.Second) / BlockFrequency() - MaintTime()[0]` (the untruncated target
interval minus the first-window maintenance average, of either sign), and exactly one
sample `budget * frequency * 100 / 1e9` to the computed-processing-time-percent series. -/
theorem computeProcTime_appends (k : State) :
    k.computeProcTime.metrics.computedProcTime.samples =
      k.metrics.computedProcTime.samples ++ [F64.sub k.floatInterval k.maintAvg] ∧
    k.computeProcTime.metrics.computedProcTimePercent.samples =
      k.metrics.computedProcTimePercent.samples ++
        [F64.div (F64.mul (F64.mul (F64.sub k.floatInterval k.maintAvg) k.ktime.BlockFrequency)
          (F64.fin 100)) (F64.fin 1000000000)] := by
  have h1 : F64.ofInt Second = F64.fin 1000000000 := by
    simp [F64.ofInt, Second]
  simp only [State.computeProcTime, computeProcTime_metrics, procTime_eq,
    KernelMetrics.setComputedProcTime, SMASet.Add, h1, and_self]

/-! ### The cycle counter -/

theorem cycleStarts_cons (op : Op) (ops : List Op) :
    cycleStarts (op :: ops) = (if op.isStartCycle then 1 else 0) + cycleStarts ops := by
  unfold cycleStarts
  cases h : op.isStartCycle <;> simp [List.filter_cons, h]
  omega

theorem step_cycleNumber (k : State) (op : Op) :
    (step k op).ktime.cycleNumber =
      if op.isStartCycle then (k.ktime.cycleNumber + 1) % 2 ^ 64 else k.ktime.cycleNumber := by
  cases op <;> rfl

theorem run_cycleNumber (ops : List Op) (k : State) :
    (run k ops).ktime.cycleNumber % 2 ^ 64 =
      (k.ktime.cycleNumber + cycleStarts ops) % 2 ^ 64 := by
  induction ops generalizing k with
  | nil => rfl
  | cons op ops ih =>
    show (run (step k op) ops).ktime.cycleNumber % 2 ^ 64 = _
    rw [ih, step_cycleNumber, cycleStarts_cons]
    cases op.isStartCycle
    · simp
    · simp
      omega

theorem run_cycleNumber_lt (ops : List Op) (k : State) (h : k.ktime.cycleNumber < 2 ^ 64) :
    (run k ops).ktime.cycleNumber < 2 ^ 64 := by
  induction ops generalizing k with
  | nil => exact h
  | cons op ops ih =>
    apply ih (step k op)
    rw [step_cycleNumber]
    split
    · exact Nat.mod_lt _ (by norm_num)
    · exact h

/-- C5: a freshly initialised clock has cycle number 0; after any sequence of operations
containing `k` calls of `startCycle()`, with `k` below the `uint64` limit, `CycleNumber()`
is `k`; and an operation other than `startCycle()` leaves the cycle number unchanged. -/
theorem cycleNumber_eq_cycleStarts (freq : F64) (ops : List Op)
    (h : cycleStarts ops < 2 ^ 64) :
    (init freq).ktime.CycleNumber = 0 ∧
    (run (init freq) ops).ktime.CycleNumber = cycleStarts ops ∧
    ∀ (s : State) (op : Op), op.isStartCycle = false →
      (step s op).ktime.CycleNumber = s.ktime.CycleNumber := by
  refine ⟨rfl, ?_, ?_⟩
  · have h0 : (init freq).ktime.cycleNumber = 0 := rfl
    have h1 := run_cycleNumber ops (init freq)
    have h2 := run_cycleNumber_lt ops (init freq) (by rw [h0]; norm_num)
    rw [h0, Nat.zero_add, Nat.mod_eq_of_lt h2, Nat.mod_eq_of_lt h] at h1
    exact h1
  · intro s op hop
    simp only [KernelTime.CycleNumber, step_cycleNumber, hop]
    rfl

/-- Witness for C5: two calls of `startCycle()` interleaved with other operations give
cycle number 2. -/
theorem cycleNumber_eq_cycleStarts_witness :
    (run (init (F64.fin 2))
      [.up 5, .startCycle 10, .setMaintTime 3, .computeProcTime, .startCycle 20]).ktime.CycleNumber
      = 2 :=
  (cycleNumber_eq_cycleStarts (F64.fin 2)
    [.up 5, .startCycle 10, .setMaintTime 3, .computeProcTime, .startCycle 20]
    (by simp [cycleStarts, Op.isStartCycle])).2.1

/-! ### Percentages recorded with the cycle time -/

theorem step_lastMaintTime (k : State) (op : Op) :
    (step k op).metrics.lastMaintTime = (op.maintArg).getD k.metrics.lastMaintTime := by
  cases op <;>
    simp only [step, startCycle, KernelMetrics.setCycleTime, KernelMetrics.setMaintTime,
      KernelMetrics.setGenBlockTime, KernelMetrics.setAddBlockTime,
      KernelMetrics.setConfBlockTime, KernelMetrics.setEvalTime,
      KernelMetrics.setComputedProcTime, KernelMetrics.setActualProcTime,
      KernelMetrics.setBlockQCount, KernelMetrics.setRecvQCount, KernelMetrics.RecvQCount,
      KernelMetrics.getRecvQ, computeProcTime_metrics, Op.maintArg, Option.getD_none,
      Option.getD_some]

theorem step_lastProcTime (k : State) (op : Op) :
    (step k op).metrics.lastProcTime = (op.procArg).getD k.metrics.lastProcTime := by
  cases op <;>
    simp only [step, startCycle, KernelMetrics.setCycleTime, KernelMetrics.setMaintTime,
      KernelMetrics.setGenBlockTime, KernelMetrics.setAddBlockTime,
      KernelMetrics.setConfBlockTime, KernelMetrics.setEvalTime,
      KernelMetrics.setComputedProcTime, KernelMetrics.setActualProcTime,
      KernelMetrics.setBlockQCount, KernelMetrics.setRecvQCount, KernelMetrics.RecvQCount,
      KernelMetrics.getRecvQ, computeProcTime_metrics, Op.procArg, Option.getD_none,
      Option.getD_some]

theorem run_lastMaintTime (ops : List Op) (k : State) :
    (run k ops).metrics.lastMaintTime =
      (ops.filterMap Op.maintArg).getLastD k.metrics.lastMaintTime := by
  induction ops generalizing k with
  | nil => rfl
  | cons op ops ih =>
    show (run (step k op) ops).metrics.lastMaintTime = _
    rw [ih, step_lastMaintTime]
    cases h : op.maintArg with
    | none => simp only [List.filterMap_cons, h, Option.getD_none]
    | some v => simp only [List.filterMap_cons, h, Option.getD_some, List.getLastD_cons]

theorem run_lastProcTime (ops : List Op) (k : State) :
    (run k ops).metrics.lastProcTime =
      (ops.filterMap Op.procArg).getLastD k.metrics.lastProcTime := by
  induction ops generalizing k with
  | nil => rfl
  | cons op ops ih =>
    show (run (step k op) ops).metrics.lastProcTime = _
    rw [ih, step_lastProcTime]
    cases h : op.procArg with
    | none => simp only [List.filterMap_cons, h, Option.getD_none]
    | some v => simp only [List.filterMap_cons, h, Option.getD_some, List.getLastD_cons]

/-- C6: after any sequence of operations, `setCycleTime(d)` with `d ≠ 0` appends to the
maintenance-percent series the one sample `100 * float64(m) / float64(d)` and to the
actual-processing-percent series the one sample `100 * float64(p) / float64(d)`, `m` and
`p` being the values most recently passed to `setMaintTime` and `setActualProcTime` (0
when never called); both samples are finite. -/
theorem setCycleTime_percent (freq : F64) (ops : List Op) (d : Int) (hd : d ≠ 0) :
    ((run (init freq) ops).metrics.setCycleTime d).maintTimePercent.samples =
      (run (init freq) ops).metrics.maintTimePercent.samples ++
        [F64.div (F64.mul (F64.fin 100) (F64.ofInt (lastMaintArg ops))) (F64.ofInt d)] ∧
    ((run (init freq) ops).metrics.setCycleTime d).actualProcTimePercent.samples =
      (run (init freq) ops).metrics.actualProcTimePercent.samples ++
        [F64.div (F64.mul (F64.fin 100) (F64.ofInt (lastProcArg ops))) (F64.ofInt d)] ∧
    F64.isFinite
      (F64.div (F64.mul (F64.fin 100) (F64.ofInt (lastMaintArg ops))) (F64.ofInt d)) = true ∧
    F64.isFinite
      (F64.div (F64.mul (F64.fin 100) (F64.ofInt (lastProcArg ops))) (F64.ofInt d)) = true := by
  have hd2 : (d : ℚ) ≠ 0 := Int.cast_ne_zero.mpr hd
  have hm : (run (init freq) ops).metrics.lastMaintTime = lastMaintArg ops :=
    run_lastMaintTime ops (init freq)
  have hp : (run (init freq) ops).metrics.lastProcTime = lastProcArg ops :=
    run_lastProcTime ops (init freq)
  refine ⟨?_, ?_, ?_, ?_⟩
  · simp only [KernelMetrics.setCycleTime, SMASet.Add, hm]
  · simp only [KernelMetrics.setCycleTime, SMASet.Add, hp]
  · simp only [F64.ofInt, F64.mul, F64.div, if_neg hd2, F64.isFinite]
  · simp only [F64.ofInt, F64.mul, F64.div, if_neg hd2, F64.isFinite]

/-- Witness for C6: a cycle of 1,000,000,000 ns after a maintenance time of 50,000,000 ns
gives the maintenance-percent sample 5.0. -/
theorem setCycleTime_percent_witness :
    (1000000000 : Int) ≠ 0 ∧
    ((run (init (F64.fin 2)) [.setMaintTime 50000000]).metrics.setCycleTime
        1000000000).maintTimePercent.samples = [F64.fin 5] := by
  refine ⟨by norm_num, ?_⟩
  have h := (setCycleTime_percent (F64.fin 2) [.setMaintTime 50000000] 1000000000
    (by norm_num)).1
  rw [h]
  simp [run, step, init, initMetrics, NewSMASet, KernelMetrics.setMaintTime, lastMaintArg,
    Op.maintArg, F64.ofInt, F64.mul, F64.div]
  norm_num

/-- C7 (counterexample): on a fresh aggregator `setCycleTime(0)` appends `NaN` (from
`0 / 0`) to the maintenance-percent series, so a non-finite sample is recorded. -/
theorem setCycleTime_zero_appends_nan :
    ¬ (∀ x ∈ (initMetrics.setCycleTime 0).maintTimePercent.samples, F64.isFinite x = true) := by
  simp [initMetrics, NewSMASet, KernelMetrics.setCycleTime, SMASet.Add, F64.ofInt, F64.mul,
    F64.div, F64.isFinite]

/-- C7 (amended): after any sequence of operations `setCycleTime(0)` performs the two
divisions unguarded; each percent series receives exactly one sample, which is `NaN` when
the value most recently passed to `setMaintTime` (respectively `setActualProcTime`) is 0
or none was passed, `+Inf` when it is positive and `-Inf` when it is negative. -/
theorem setCycleTime_zero (freq : F64) (ops : List Op) :
    ((run (init freq) ops).metrics.setCycleTime 0).maintTimePercent.samples =
      (run (init freq) ops).metrics.maintTimePercent.samples ++
        [if lastMaintArg ops = 0 then F64.nan
         else if 0 < lastMaintArg ops then F64.pinf else F64.ninf] ∧
    ((run (init freq) ops).metrics.setCycleTime 0).actualProcTimePercent.samples =
      (run (init freq) ops).metrics.actualProcTimePercent.samples ++
        [if lastProcArg ops = 0 then F64.nan
         else if 0 < lastProcArg ops then F64.pinf else F64.ninf] := by
  have hm : (run (init freq) ops).metrics.lastMaintTime = lastMaintArg ops :=
    run_lastMaintTime ops (init freq)
  have hp : (run (init freq) ops).metrics.lastProcTime = lastProcArg ops :=
    run_lastProcTime ops (init freq)
  constructor
  · simp only [KernelMetrics.setCycleTime, SMASet.Add, hm, F64.ofInt, F64.mul, F64.div]
    simp
  · simp only [KernelMetrics.setCycleTime, SMASet.Add, hp, F64.ofInt, F64.mul, F64.div]
    simp

/-! ### Configuration of the clock -/

/-- C8 (counterexample): `initTime(-2.0)` is accepted and leaves the clock configured with
the frequency -2.0 and the negative block interval -500,000,000 ns. -/
theorem initTime_negative_accepted :
    (initTime (F64.fin (-2))).BlockFrequency = F64.fin (-2) ∧
    (initTime (F64.fin (-2))).BlockInterval = -500000000 := by
  refine ⟨rfl, ?_⟩
  have h := F64.toInt64_fin_nonpos (-500000000) (by norm_num) (by norm_num)
  have h2 : ⌊-(-500000000 : ℚ)⌋ = 500000000 :=
    Int.floor_eq_iff.mpr ⟨by norm_num, by norm_num⟩
  rw [h2] at h
  simp only [initTime, KernelTime.setBlockFrequency, KernelTime.BlockInterval, F64.ofInt,
    F64.div, Second]
  rw [if_neg (by norm_num)]
  rw [← h]
  norm_num

/-- C8 (amended): `setBlockFrequency` (and so `initTime`) validates nothing: every rate is
stored as the block frequency, and the block interval stored with it is the conversion
`int64(float64(time.Second) / rate)` of the float quotient; for a negative rate `q` that
interval is never positive and is strictly negative when `-1e9 ≤ q`; for the rate 0 the
float quotient is `+Inf`. -/
theorem setBlockFrequency_unvalidated (t : KernelTime) (rate : F64) (q : ℚ) (hq : q < 0) :
    (t.setBlockFrequency rate).BlockFrequency = rate ∧
    (t.setBlockFrequency rate).BlockInterval =
      F64.toInt64 (F64.div (F64.ofInt Second) rate) ∧
    (t.setBlockFrequency (F64.fin q)).BlockInterval ≤ 0 ∧
    (-1000000000 ≤ q → (t.setBlockFrequency (F64.fin q)).BlockInterval < 0) ∧
    F64.div (F64.ofInt Second) (F64.fin 0) = F64.pinf := by
  have hx : (1000000000 : ℚ) / q ≤ 0 :=
    div_nonpos_of_nonneg_of_nonpos (by norm_num) (le_of_lt hq)
  have hi : (t.setBlockFrequency (F64.fin q)).BlockInterval =
      F64.toInt64 (F64.fin (1000000000 / q)) := by
    simp only [KernelTime.setBlockFrequency, KernelTime.BlockInterval, F64.ofInt, F64.div,
      Second, if_neg (ne_of_lt hq)]
    norm_num
  refine ⟨rfl, rfl, ?_, ?_, ?_⟩
  · rw [hi]
    exact F64.toInt64_le_zero _ hx
  · intro hq2
    rw [hi]
    apply F64.toInt64_neg
    rw [div_le_iff_of_neg hq]
    linarith
  · simp [F64.ofInt, F64.div, Second]

/-- Witness for C8: the rate -4.0 is stored and yields a negative block interval. -/
theorem setBlockFrequency_unvalidated_witness :
    (-4 : ℚ) < 0 ∧ (KernelTime.zero.setBlockFrequency (F64.fin (-4))).BlockFrequency
      = F64.fin (-4) ∧
    (KernelTime.zero.setBlockFrequency (F64.fin (-4))).BlockInterval < 0 :=
  ⟨by norm_num,
   (setBlockFrequency_unvalidated KernelTime.zero (F64.fin (-4)) (-4) (by norm_num)).1,
   (setBlockFrequency_unvalidated KernelTime.zero (F64.fin (-4)) (-4) (by norm_num)).2.2.2.1
     (by norm_num)⟩

/-! ### The duration reported by `startCycle` -/

/-- C9 (the code at the failing input): after activation at 1,700,000,000,000,000,000 ns the
first `startCycle()`, 500,000,000 ns later, passes `now - 0 = 1,700,000,000,500,000,000` to
`setCycleTime`, not the 500,000,000 ns elapsed since activation. -/
theorem first_startCycle_reports_time_since_epoch :
    activatedState.ktime.startTime = 1700000000000000000 ∧
    activatedState.ktime.cycleStartTime = 0 ∧
    (startCycle activatedState 1700000000500000000).metrics =
      activatedState.metrics.setCycleTime 1700000000500000000 ∧
    (startCycle activatedState 1700000000500000000).metrics.cycleTime.samples =
      [F64.fin 1700000000500000000] ∧
    (startCycle activatedState 1700000000500000000).metrics.cycleTime.samples ≠
      [F64.ofInt (1700000000500000000 - activatedState.ktime.startTime)] := by
  have h1 : activatedState.ktime.startTime = 1700000000000000000 := rfl
  have h2 : activatedState.ktime.cycleStartTime = 0 := rfl
  have h3 : (startCycle activatedState 1700000000500000000).metrics =
      activatedState.metrics.setCycleTime 1700000000500000000 := by
    simp only [startCycle, h2, sub_zero]
  have h4 : (startCycle activatedState 1700000000500000000).metrics.cycleTime.samples =
      [F64.fin 1700000000500000000] := by
    rw [h3]
    simp [activatedState, run, step, init, initMetrics, NewSMASet, KernelTime.up,
      KernelMetrics.setCycleTime, SMASet.Add, F64.ofInt]
  refine ⟨h1, h2, h3, h4, ?_⟩
  rw [h4, h1]
  simp [F64.ofInt]

/-! ### The inbound-queue collection -/

theorem mapLoad_nil (name : String) : mapLoad [] name = none := rfl

theorem mapLoad_cons (e : String × SMASet) (m : List (String × SMASet)) (name : String) :
    mapLoad (e :: m) name = if e.1 = name then some e.2 else mapLoad m name := by
  unfold mapLoad
  by_cases h : e.1 = name
  · simp [List.find?_cons, h]
  · simp [List.find?_cons, h]

theorem mapLoad_append_single (m : List (String × SMASet)) (n : String) (s : SMASet)
    (name : String) :
    mapLoad (m ++ [(n, s)]) name =
      match mapLoad m name with
      | some x => some x
      | none => if n = name then some s else none := by
  induction m with
  | nil => simp [mapLoad_cons, mapLoad_nil]
  | cons e m ih =>
    rw [List.cons_append, mapLoad_cons, mapLoad_cons]
    by_cases h : e.1 = name
    · simp [h]
    · simp only [h, if_false]
      exact ih

theorem mapLoad_replace_same (m : List (String × SMASet)) (n : String) (s : SMASet) :
    mapLoad (mapReplace m n s) n = (mapLoad m n).map (fun _ => s) := by
  induction m with
  | nil => rfl
  | cons e m ih =>
    have hc : mapReplace (e :: m) n s =
        (if e.1 == n then (e.1, s) else e) :: mapReplace m n s := rfl
    rw [hc, mapLoad_cons, mapLoad_cons]
    by_cases h : e.1 = n
    · simp [h]
    · have hb : (e.1 == n) = false := by simpa using h
      simp only [hb, Bool.false_eq_true, if_false, h]
      exact ih

theorem mapLoad_replace_other (m : List (String × SMASet)) (n : String) (s : SMASet)
    (name : String) (hne : name ≠ n) :
    mapLoad (mapReplace m n s) name = mapLoad m name := by
  induction m with
  | nil => rfl
  | cons e m ih =>
    have hc : mapReplace (e :: m) n s =
        (if e.1 == n then (e.1, s) else e) :: mapReplace m n s := rfl
    rw [hc, mapLoad_cons, mapLoad_cons, ih]
    by_cases h : e.1 = n
    · have h2 : ¬ n = name := fun h3 => hne h3.symm
      simp [h, h2]
    · have hb : (e.1 == n) = false := by simpa using h
      simp only [hb, Bool.false_eq_true, if_false]

theorem mapReplace_keys (m : List (String × SMASet)) (n : String) (s : SMASet) :
    (mapReplace m n s).map Prod.fst = m.map Prod.fst := by
  induction m with
  | nil => rfl
  | cons e m ih =>
    have hc : mapReplace (e :: m) n s =
        (if e.1 == n then (e.1, s) else e) :: mapReplace m n s := rfl
    rw [hc, List.map_cons, List.map_cons, ih]
    by_cases h : (e.1 == n) = true
    · simp [h]
    · simp [h]

theorem mapReplace_append (m₁ m₂ : List (String × SMASet)) (n : String) (s : SMASet) :
    mapReplace (m₁ ++ m₂) n s = mapReplace m₁ n s ++ mapReplace m₂ n s := by
  simp [mapReplace]

theorem setRecvQCount_absent (m : KernelMetrics) (name : String) (c : Int)
    (h : mapLoad m.recvQCounts name = none) :
    (m.setRecvQCount name c).recvQCounts =
      mapReplace m.recvQCounts name ((NewSMASet SMAWindows).Add (F64.ofInt c)) ++
        [(name, (NewSMASet SMAWindows).Add (F64.ofInt c))] := by
  simp [KernelMetrics.setRecvQCount, KernelMetrics.getRecvQ, mapLoadOrStore, h,
    mapReplace_append, mapReplace]

theorem setRecvQCount_present (m : KernelMetrics) (name : String) (c : Int) (s : SMASet)
    (h : mapLoad m.recvQCounts name = some s) :
    (m.setRecvQCount name c).recvQCounts =
      mapReplace m.recvQCounts name (s.Add (F64.ofInt c)) := by
  simp [KernelMetrics.setRecvQCount, KernelMetrics.getRecvQ, mapLoadOrStore, h]

theorem setRecvQCount_other (m : KernelMetrics) (name : String) (c : Int) (other : String)
    (hne : other ≠ name) :
    mapLoad (m.setRecvQCount name c).recvQCounts other = mapLoad m.recvQCounts other := by
  cases h : mapLoad m.recvQCounts name with
  | none =>
    rw [setRecvQCount_absent m name c h, mapLoad_append_single, mapLoad_replace_other _ _ _ _ hne]
    have h2 : ¬ name = other := fun h3 => hne h3.symm
    cases mapLoad m.recvQCounts other <;> simp [h2]
  | some s =>
    rw [setRecvQCount_present m name c s h, mapLoad_replace_other _ _ _ _ hne]

theorem setRecvQCount_same_absent (m : KernelMetrics) (name : String) (c : Int)
    (h : mapLoad m.recvQCounts name = none) :
    mapLoad (m.setRecvQCount name c).recvQCounts name =
      some { windows := SMAWindows, samples := [F64.ofInt c] } := by
  rw [setRecvQCount_absent m name c h, mapLoad_append_single, mapLoad_replace_same, h]
  simp [NewSMASet, SMASet.Add]

theorem setRecvQCount_same_present (m : KernelMetrics) (name : String) (c : Int) (s : SMASet)
    (h : mapLoad m.recvQCounts name = some s) :
    mapLoad (m.setRecvQCount name c).recvQCounts name = some (s.Add (F64.ofInt c)) := by
  rw [setRecvQCount_present m name c s h, mapLoad_replace_same, h]
  rfl

theorem mapLoad_none_iff (m : List (String × SMASet)) (name : String) :
    mapLoad m name = none ↔ name ∉ m.map Prod.fst := by
  induction m with
  | nil => simp [mapLoad_nil]
  | cons e m ih =>
    rw [mapLoad_cons, List.map_cons, List.mem_cons, not_or]
    by_cases h : e.1 = name
    · simp [h]
    · simp only [h, if_false, ih]
      constructor
      · intro h2
        exact ⟨fun h3 => h h3.symm, h2⟩
      · intro h2
        exact h2.2

theorem mapReplace_absent (m : List (String × SMASet)) (n : String) (s : SMASet)
    (h : mapLoad m n = none) : mapReplace m n s = m := by
  induction m with
  | nil => rfl
  | cons e m ih =>
    have hc : mapReplace (e :: m) n s =
        (if e.1 == n then (e.1, s) else e) :: mapReplace m n s := rfl
    rw [mapLoad_cons] at h
    by_cases h2 : e.1 = n
    · simp [h2] at h
    · simp only [h2, if_false] at h
      have hb : (e.1 == n) = false := by simpa using h2
      rw [hc, ih h]
      simp only [hb, Bool.false_eq_true, if_false]

theorem setRecvQCount_create (m : KernelMetrics) (name : String) (c : Int)
    (h : mapLoad m.recvQCounts name = none) :
    (m.setRecvQCount name c).recvQCounts =
      m.recvQCounts ++ [(name, { windows := SMAWindows, samples := [F64.ofInt c] })] := by
  rw [setRecvQCount_absent m name c h, mapReplace_absent _ _ _ h]
  simp [NewSMASet, SMASet.Add]

theorem setRecvQCount_keys_nodup (m : KernelMetrics) (name : String) (c : Int)
    (h : (m.recvQCounts.map Prod.fst).Nodup) :
    ((m.setRecvQCount name c).recvQCounts.map Prod.fst).Nodup := by
  cases hl : mapLoad m.recvQCounts name with
  | none =>
    rw [setRecvQCount_create m name c hl, List.map_append, List.map_singleton]
    have hn := (mapLoad_none_iff _ _).mp hl
    rw [List.nodup_append]
    refine ⟨h, List.nodup_singleton _, ?_⟩
    intro a ha hb
    rw [List.mem_singleton] at hb
    subst hb
    exact hn ha
  | some s =>
    rw [setRecvQCount_present m name c s hl, mapReplace_keys]
    exact h

theorem getRecvQ_keys_nodup (m : KernelMetrics) (name : String)
    (h : (m.recvQCounts.map Prod.fst).Nodup) :
    (((m.getRecvQ name).2).recvQCounts.map Prod.fst).Nodup := by
  cases hl : mapLoad m.recvQCounts name with
  | none =>
    simp only [KernelMetrics.getRecvQ, mapLoadOrStore, hl, List.map_append, List.map_singleton]
    have hn := (mapLoad_none_iff _ _).mp hl
    rw [List.nodup_append]
    refine ⟨h, List.nodup_singleton _, ?_⟩
    intro a ha hb
    rw [List.mem_singleton] at hb
    subst hb
    exact hn ha
  | some s =>
    simp only [KernelMetrics.getRecvQ, mapLoadOrStore, hl]
    exact h

theorem step_keys_nodup (k : State) (op : Op)
    (h : (k.metrics.recvQCounts.map Prod.fst).Nodup) :
    ((step k op).metrics.recvQCounts.map Prod.fst).Nodup := by
  cases op with
  | setRecvQCount n c => exact setRecvQCount_keys_nodup k.metrics n c h
  | RecvQCount n => exact getRecvQ_keys_nodup k.metrics n h
  | computeProcTime =>
    simp only [step, computeProcTime_metrics, KernelMetrics.setComputedProcTime]
    exact h
  | _ => exact h

theorem run_keys_nodup (ops : List Op) (k : State)
    (h : (k.metrics.recvQCounts.map Prod.fst).Nodup) :
    ((run k ops).metrics.recvQCounts.map Prod.fst).Nodup := by
  induction ops generalizing k with
  | nil => exact h
  | cons op ops ih => exact ih (step k op) (step_keys_nodup k op h)

theorem recvRecordings_cons (name : String) (op : Op) (ops : List Op) :
    recvRecordings name (op :: ops) =
      (if op.isRecvFor name then 1 else 0) + recvRecordings name ops := by
  unfold recvRecordings
  cases h : op.isRecvFor name <;> simp [List.filter_cons, h]
  omega

theorem getRecvQ_samplesUnder (m : KernelMetrics) (n name : String) :
    samplesUnder (m.getRecvQ n).2 name = samplesUnder m name := by
  cases hl : mapLoad m.recvQCounts n with
  | some s => simp only [KernelMetrics.getRecvQ, mapLoadOrStore, hl]
  | none =>
    simp only [samplesUnder, KernelMetrics.getRecvQ, mapLoadOrStore, hl, mapLoad_append_single]
    cases hx : mapLoad m.recvQCounts name with
    | some x => rfl
    | none =>
      by_cases hn : n = name
      · simp [hn, NewSMASet]
      · simp [hn]

theorem setRecvQCount_samplesUnder (m : KernelMetrics) (n name : String) (c : Int) :
    samplesUnder (m.setRecvQCount n c) name =
      samplesUnder m name + (if n = name then 1 else 0) := by
  by_cases hn : n = name
  · subst hn
    cases hl : mapLoad m.recvQCounts n with
    | none =>
      simp [samplesUnder, setRecvQCount_same_absent m n c hl, hl]
    | some s =>
      simp [samplesUnder, setRecvQCount_same_present m n c s hl, hl, SMASet.Add]
  · have hne : name ≠ n := fun h => hn h.symm
    simp only [samplesUnder, setRecvQCount_other m n c name hne, hn, if_false, Nat.add_zero]

theorem step_samplesUnder (k : State) (op : Op) (name : String) :
    samplesUnder (step k op).metrics name =
      samplesUnder k.metrics name + (if op.isRecvFor name then 1 else 0) := by
  cases op with
  | setRecvQCount n c =>
    simp only [step, Op.isRecvFor, beq_iff_eq]
    exact setRecvQCount_samplesUnder k.metrics n name c
  | RecvQCount n =>
    simp only [step, Op.isRecvFor, KernelMetrics.RecvQCount, Bool.false_eq_true, if_false,
      Nat.add_zero]
    exact getRecvQ_samplesUnder k.metrics n name
  | computeProcTime =>
    simp only [step, computeProcTime_metrics, KernelMetrics.setComputedProcTime, Op.isRecvFor,
      Bool.false_eq_true, if_false, Nat.add_zero]
    rfl
  | _ => rfl

theorem run_samplesUnder (ops : List Op) (k : State) (name : String) :
    samplesUnder (run k ops).metrics name =
      samplesUnder k.metrics name + recvRecordings name ops := by
  induction ops generalizing k with
  | nil => rfl
  | cons op ops ih =>
    show samplesUnder (run (step k op) ops).metrics name = _
    rw [ih, step_samplesUnder, recvRecordings_cons, Nat.add_assoc]

/-- C10: in the sequential model of the inbound-queue collection, `setRecvQCount(name, c)`
for a name that is absent appends exactly one entry, the series under `name` holding the
single sample `c`, and leaves every other entry as it was; for a name that is present it
appends `c` to that series without changing the set of names; the series of every other
name is unchanged; and after any sequence of operations from the initial state the names
are pairwise distinct and the number of samples under a name is the number of recordings
made for it. -/
theorem setRecvQCount_get_or_create (m : KernelMetrics) (freq : F64) (ops : List Op)
    (name : String) (c : Int) :
    (mapLoad m.recvQCounts name = none →
      (m.setRecvQCount name c).recvQCounts =
        m.recvQCounts ++ [(name, { windows := SMAWindows, samples := [F64.ofInt c] })]) ∧
    (∀ s : SMASet, mapLoad m.recvQCounts name = some s →
      mapLoad (m.setRecvQCount name c).recvQCounts name = some (s.Add (F64.ofInt c)) ∧
      (m.setRecvQCount name c).recvQCounts.map Prod.fst = m.recvQCounts.map Prod.fst) ∧
    (∀ other : String, other ≠ name →
      mapLoad (m.setRecvQCount name c).recvQCounts other = mapLoad m.recvQCounts other) ∧
    ((run (init freq) ops).metrics.recvQCounts.map Prod.fst).Nodup ∧
    samplesUnder (run (init freq) ops).metrics name = recvRecordings name ops := by
  refine ⟨setRecvQCount_create m name c, ?_, ?_, ?_, ?_⟩
  · intro s hs
    refine ⟨setRecvQCount_same_present m name c s hs, ?_⟩
    rw [setRecvQCount_present m name c s hs, mapReplace_keys]
  · intro other hne
    exact setRecvQCount_other m name c other hne
  · exact run_keys_nodup ops (init freq) List.nodup_nil
  · rw [run_samplesUnder]
    simp [samplesUnder, init, initMetrics, mapLoad_nil]

/-- Witness for C10: the first recording under "tcp" creates the one series holding the
sample 3, and after two recordings under "tcp" and one under "udp" the series under "tcp"
holds two samples. -/
theorem setRecvQCount_get_or_create_witness :
    mapLoad initMetrics.recvQCounts "tcp" = none ∧
    (initMetrics.setRecvQCount "tcp" 3).recvQCounts =
      [("tcp", { windows := SMAWindows, samples := [F64.ofInt 3] })] ∧
    samplesUnder (run (init (F64.fin 2))
      [.setRecvQCount "tcp" 3, .setRecvQCount "udp" 1, .setRecvQCount "tcp" 5]).metrics "tcp"
      = 2 := by
  have h := setRecvQCount_get_or_create initMetrics (F64.fin 2)
    [.setRecvQCount "tcp" 3, .setRecvQCount "udp" 1, .setRecvQCount "tcp" 5] "tcp" 3
  refine ⟨rfl, ?_, ?_⟩
  · have h1 := h.1 rfl
    simpa [initMetrics] using h1
  · rw [h.2.2.2.2]
    simp [recvRecordings, Op.isRecvFor]

/-! ### The configured interval -/

/-- C11 (counterexample): after `setBlockFrequency(1.5)` the block interval is
666,666,666 ns, which is not `1,000,000,000 / 1.5`. -/
theorem blockInterval_not_exact_quotient :
    ¬ (((KernelTime.zero.setBlockFrequency (F64.fin (3 / 2))).BlockInterval : ℚ) =
        1000000000 / (3 / 2)) := by
  have h : F64.toInt64 (F64.fin (2000000000 / 3)) = 666666666 :=
    F64.toInt64_fin_eq _ _ (by norm_num) (by norm_num) (by norm_num) (by norm_num)
  have hi : (KernelTime.zero.setBlockFrequency (F64.fin (3 / 2))).BlockInterval = 666666666 := by
    simp only [KernelTime.setBlockFrequency, KernelTime.BlockInterval, F64.ofInt, F64.div,
      Second]
    rw [if_neg (by norm_num), ← h]
    norm_num
  rw [hi]
  norm_num

/-- C11 (amended): for every positive frequency `q`, after `setBlockFrequency(q)`
`BlockFrequency()` returns `q` and `BlockInterval()` is the conversion
`int64(float64(time.Second) / q)` of the float quotient, its fraction dropped. For
`q ≥ 1e-9` it lies within one nanosecond and the relative rounding `2 ^ -53` of the
float division of `1,000,000,000 / q`, and it equals `1,000,000,000 / q` whenever that
quotient is a whole number below `2 ^ 53`. -/
theorem blockInterval_truncated_quotient (t : KernelTime) (q : ℚ) (hq : 0 < q) :
    (t.setBlockFrequency (F64.fin q)).BlockFrequency = F64.fin q ∧
    (t.setBlockFrequency (F64.fin q)).BlockInterval =
      F64.toInt64 (F64.div (F64.ofInt Second) (F64.fin q)) ∧
    (1 / 1000000000 ≤ q →
      (1000000000 / q) * (1 - 1 / 2 ^ 53) - 1 <
        ((t.setBlockFrequency (F64.fin q)).BlockInterval : ℚ) ∧
      ((t.setBlockFrequency (F64.fin q)).BlockInterval : ℚ) ≤
        (1000000000 / q) * (1 + 1 / 2 ^ 53)) ∧
    (∀ z : Int, (1000000000 : ℚ) / q = (z : ℚ) → z < 2 ^ 53 →
      (t.setBlockFrequency (F64.fin q)).BlockInterval = z) := by
  have hx : (0 : ℚ) ≤ 1000000000 / q := le_of_lt (div_pos (by norm_num) hq)
  have hi : (t.setBlockFrequency (F64.fin q)).BlockInterval =
      F64.toInt64 (F64.fin (1000000000 / q)) := by
    simp only [KernelTime.setBlockFrequency, KernelTime.BlockInterval, F64.ofInt, F64.div,
      Second, if_neg (ne_of_gt hq)]
    norm_num
  refine ⟨rfl, rfl, ?_, ?_⟩
  · intro hq2
    have hx2 : (1000000000 : ℚ) / q ≤ 1000000000000000000 := by
      rw [div_le_iff₀ hq]
      linarith
    have hfl : ⌊(1000000000 : ℚ) / q⌋ < 2 ^ 63 :=
      Int.floor_lt.mpr (by push_cast; linarith)
    have hi2 : (t.setBlockFrequency (F64.fin q)).BlockInterval = ⌊(1000000000 : ℚ) / q⌋ := by
      rw [hi]
      exact F64.toInt64_fin_eq _ _ hx (Int.floor_le _) (Int.lt_floor_add_one _) hfl
    have h1 := Int.floor_le ((1000000000 : ℚ) / q)
    have h2 := Int.lt_floor_add_one ((1000000000 : ℚ) / q)
    have h3 : (0 : ℚ) ≤ 1000000000 / q * (1 / 2 ^ 53) := mul_nonneg hx (by positivity)
    rw [hi2]
    constructor
    · linarith
    · linarith
  · intro z hz hz2
    rw [hi, hz]
    have hz0 : (0 : ℚ) ≤ (z : ℚ) := by rw [← hz]; exact hx
    exact F64.toInt64_fin_eq _ z hz0 (le_refl _) (by linarith) (by omega)

/-- Witness for C11: the frequency 2.0 gives exactly 500,000,000 ns. -/
theorem blockInterval_truncated_quotient_witness :
    (0 : ℚ) < 2 ∧
    (KernelTime.zero.setBlockFrequency (F64.fin 2)).BlockFrequency = F64.fin 2 ∧
    (KernelTime.zero.setBlockFrequency (F64.fin 2)).BlockInterval = 500000000 :=
  ⟨by norm_num,
   (blockInterval_truncated_quotient KernelTime.zero 2 (by norm_num)).1,
   (blockInterval_truncated_quotient KernelTime.zero 2 (by norm_num)).2.2.2 500000000
     (by norm_num) (by norm_num)⟩

/-! ### Frame of the observation operations -/

/-- C12: each of `setGenBlockTime`, `setAddBlockTime`, `setConfBlockTime` and
`setEvalTime` appends the one sample `d` to its own series and changes no other field of
the aggregator (no other series, not the inbound-queue collection, neither last-observed
scalar); `setMaintTime` and `setActualProcTime` append `d` to their own series, set their
own last-observed scalar to `d`, and change nothing else. -/
theorem observation_frame (m : KernelMetrics) (d : Int) :
    m.setGenBlockTime d = { m with genBlockTime :=
      { windows := m.genBlockTime.windows,
        samples := m.genBlockTime.samples ++ [F64.ofInt d] } } ∧
    m.setAddBlockTime d = { m with addBlockTime :=
      { windows := m.addBlockTime.windows,
        samples := m.addBlockTime.samples ++ [F64.ofInt d] } } ∧
    m.setConfBlockTime d = { m with confBlockTime :=
      { windows := m.confBlockTime.windows,
        samples := m.confBlockTime.samples ++ [F64.ofInt d] } } ∧
    m.setEvalTime d = { m with evalTime :=
      { windows := m.evalTime.windows,
        samples := m.evalTime.samples ++ [F64.ofInt d] } } ∧
    m.setMaintTime d = { m with
      maintTime :=
        { windows := m.maintTime.windows,
          samples := m.maintTime.samples ++ [F64.ofInt d] }
      lastMaintTime := d } ∧
    m.setActualProcTime d = { m with
      actualProcTime :=
        { windows := m.actualProcTime.windows,
          samples := m.actualProcTime.samples ++ [F64.ofInt d] }
      lastProcTime := d } := by
  refine ⟨?_, ?_, ?_, ?_, ?_, ?_⟩
  · simp only [KernelMetrics.setGenBlockTime, SMASet.Add]
  · simp only [KernelMetrics.setAddBlockTime, SMASet.Add]
  · simp only [KernelMetrics.setConfBlockTime, SMASet.Add]
  · simp only [KernelMetrics.setEvalTime, SMASet.Add]
  · simp only [KernelMetrics.setMaintTime, SMASet.Add]
  · simp only [KernelMetrics.setActualProcTime, SMASet.Add]

/-! ### Text output -/

theorem leftPadZeroes_eq_pad (val overallLen : Int) (hl : 0 ≤ overallLen)
    (h : (toString val).length ≤ overallLen.toNat) :
    leftPadZeroes val overallLen = some (String.mk
      (List.replicate (overallLen.toNat - (toString val).length) '0' ++ (toString val).toList)) := by
  have hlen : (toString val).toList.length = (toString val).length := rfl
  have h1 : ¬ (((toString val).toList.length : Int) > overallLen) := by
    rw [hlen]; omega
  have h2 : ¬ (overallLen - ((toString val).toList.length : Int) < 0) := by
    rw [hlen]; omega
  have h3 : (overallLen - ((toString val).toList.length : Int)).toNat =
      overallLen.toNat - (toString val).length := by
    rw [hlen]; omega
  simp only [leftPadZeroes, if_neg h1, Option.some_bind, if_neg h2, h3]

theorem leftPadZeroes_eq_take (val overallLen : Int) (hl : 0 ≤ overallLen)
    (h : overallLen.toNat < (toString val).length) :
    leftPadZeroes val overallLen =
      some (String.mk ((toString val).toList.take overallLen.toNat)) := by
  have hlen : (toString val).toList.length = (toString val).length := rfl
  have h1 : (((toString val).toList.length : Int) > overallLen) := by
    rw [hlen]; omega
  have h0 : ¬ (overallLen < 0) := by omega
  have ht : ((toString val).toList.take overallLen.toNat).length = overallLen.toNat := by
    rw [List.length_take, hlen]; omega
  have h2 : ¬ (overallLen - (((toString val).toList.take overallLen.toNat).length : Int) < 0) := by
    rw [ht]; omega
  have h3 : (overallLen - (((toString val).toList.take overallLen.toNat).length : Int)).toNat
      = 0 := by
    rw [ht]; omega
  simp only [leftPadZeroes, if_pos h1, if_neg h0, Option.some_bind, if_neg h2, h3,
    List.replicate_zero, List.nil_append]

/-- For a non-negative length `leftPadZeroes` returns, for every value, a string of
exactly that many characters. -/
theorem leftPadZeroes_length (val overallLen : Int) (hl : 0 ≤ overallLen) :
    ∃ s : String, leftPadZeroes val overallLen = some s ∧ s.length = overallLen.toNat := by
  by_cases h : (toString val).length ≤ overallLen.toNat
  · refine ⟨_, leftPadZeroes_eq_pad val overallLen hl h, ?_⟩
    have hlen : (toString val).toList.length = (toString val).length := rfl
    show (List.replicate (overallLen.toNat - (toString val).length) '0' ++
      (toString val).toList).length = overallLen.toNat
    rw [List.length_append, List.length_replicate, hlen]
    omega
  · have h2 : overallLen.toNat < (toString val).length := by omega
    refine ⟨_, leftPadZeroes_eq_take val overallLen hl h2, ?_⟩
    have hlen : (toString val).toList.length = (toString val).length := rfl
    show ((toString val).toList.take overallLen.toNat).length = overallLen.toNat
    rw [List.length_take, hlen]
    omega

/-- C17: for `val ≥ 0` and `overallLen ≥ 0`, `leftPadZeroes` does not panic and returns a
string of exactly `overallLen` characters: the decimal digits of `val` preceded by zeros
when there are at most `overallLen` digits, otherwise the first `overallLen` digits. -/
theorem leftPadZeroes_spec (val overallLen : Int) (hv : 0 ≤ val) (hl : 0 ≤ overallLen) :
    (toString val).toList = Nat.toDigits 10 val.toNat ∧
    ∃ s : String, leftPadZeroes val overallLen = some s ∧ s.length = overallLen.toNat ∧
      ((Nat.toDigits 10 val.toNat).length ≤ overallLen.toNat →
        s = String.mk (List.replicate (overallLen.toNat - (Nat.toDigits 10 val.toNat).length)
              '0' ++ Nat.toDigits 10 val.toNat)) ∧
      (overallLen.toNat < (Nat.toDigits 10 val.toNat).length →
        s = String.mk ((Nat.toDigits 10 val.toNat).take overallLen.toNat)) := by
  have hd : (toString val).toList = Nat.toDigits 10 val.toNat := by
    obtain ⟨n, rfl⟩ := Int.eq_ofNat_of_zero_le hv
    rfl
  have hlen : (toString val).length = (Nat.toDigits 10 val.toNat).length := by
    rw [← hd]; rfl
  refine ⟨hd, ?_⟩
  obtain ⟨s, hs, hsl⟩ := leftPadZeroes_length val overallLen hl
  refine ⟨s, hs, hsl, ?_, ?_⟩
  · intro h
    have h1 := leftPadZeroes_eq_pad val overallLen hl (by rw [hlen]; exact h)
    rw [hs, hd, hlen] at h1
    exact Option.some.inj h1
  · intro h
    have h1 := leftPadZeroes_eq_take val overallLen hl (by rw [hlen]; exact h)
    rw [hs, hd] at h1
    exact Option.some.inj h1

/-- Witness for C17: a value with fewer digits than the length is padded, one with more
digits is cut to its leading digits. -/
theorem leftPadZeroes_spec_witness :
    leftPadZeroes 123 6 = some "000123" ∧ leftPadZeroes 12345678 6 = some "123456" := by
  obtain ⟨_, s, hs, _, hpad, _⟩ := leftPadZeroes_spec 123 6 (by norm_num) (by norm_num)
  obtain ⟨_, s2, hs2, _, _, htake⟩ := leftPadZeroes_spec 12345678 6 (by norm_num) (by norm_num)
  refine ⟨?_, ?_⟩
  · rw [hs, hpad (by decide)]
    decide
  · rw [hs2, htake (by decide)]
    decide

/-- C13 (the code at the failing input): the report does not show the head-evaluation
series nor the maintenance-percent series. Replacing either series by any other leaves
the report unchanged, and the fresh aggregator and the aggregator after `setEvalTime(7)`,
whose `EvalTime()` averages differ, produce the same report. -/
theorem report_omits_evalTime_and_maintPercent (f : Formatters) (m : KernelMetrics)
    (t : KernelTime) (now now2 : Int) (s : SMASet) :
    KernelMetrics.String f { m with evalTime := s } t now now2 =
      KernelMetrics.String f m t now now2 ∧
    KernelMetrics.String f { m with maintTimePercent := s } t now now2 =
      KernelMetrics.String f m t now now2 ∧
    (initMetrics.setEvalTime 7).EvalTime ≠ initMetrics.EvalTime ∧
    KernelMetrics.String f (initMetrics.setEvalTime 7) t now now2 =
      KernelMetrics.String f initMetrics t now now2 := by
  refine ⟨rfl, rfl, ?_, rfl⟩
  simp [initMetrics, NewSMASet, KernelMetrics.setEvalTime, KernelMetrics.EvalTime, SMASet.Avg,
    SMAWindows, SMASet.Add, SMASet.mean, SMASet.sum, SMASet.lastWindow, F64.ofInt, F64.add,
    F64.div]

/-- C14 (the code at the failing input): `KernelTime.String()` pads the offset to the
constant width 6 and never reads `intervalLen`. Reconfiguring the frequency leaves the
rendered text unchanged, the offset always has 6 characters, and the clocks configured
with 2.0 (interval of 9 digits) and 0.5 (interval of 10 digits) render the same offset
`001234` at the same instant. -/
theorem string_offset_width_is_six (f : Formatters) (t : KernelTime) (rate : F64)
    (now : Int) :
    (t.setBlockFrequency rate).String f now = t.String f now ∧
    (∃ p : String, leftPadZeroes (Int.tdiv (now - t.cycleStartTime) 1000) 6 = some p ∧
      p.length = 6 ∧
      t.String f now = some (f.comma (uint64ToInt64 t.CycleNumber) ++ "." ++ p)) ∧
    (initTime (F64.fin 2)).intervalLen = "9" ∧
    (initTime (F64.fin (1 / 2))).intervalLen = "10" ∧
    (initTime (F64.fin 2)).String plainFormatters 1234567 = some "0.001234" ∧
    (initTime (F64.fin (1 / 2))).String plainFormatters 1234567 = some "0.001234" := by
  have h9 : F64.toInt64 (F64.div (F64.ofInt Second) (F64.fin 2)) = 500000000 := by
    have h := F64.toInt64_fin_eq 500000000 500000000 (by norm_num) (by norm_num) (by norm_num)
      (by norm_num)
    simp only [F64.ofInt, F64.div, Second]
    rw [if_neg (by norm_num), ← h]
    norm_num
  have h10 : F64.toInt64 (F64.div (F64.ofInt Second) (F64.fin (1 / 2))) = 2000000000 := by
    have h := F64.toInt64_fin_eq 2000000000 2000000000 (by norm_num) (by norm_num)
      (by norm_num) (by norm_num)
    simp only [F64.ofInt, F64.div, Second]
    rw [if_neg (by norm_num), ← h]
    norm_num
  refine ⟨rfl, ?_, ?_, ?_, ?_, ?_⟩
  · obtain ⟨p, hp, hl⟩ := leftPadZeroes_length (Int.tdiv (now - t.cycleStartTime) 1000) 6
      (by norm_num)
    refine ⟨p, hp, hl, ?_⟩
    simp only [KernelTime.String, hp, Option.map_some']
  · simp only [initTime, KernelTime.setBlockFrequency, h9]
    decide
  · simp only [initTime, KernelTime.setBlockFrequency, h10]
    decide
  · decide
  · decide

/-! ### Samples recorded per cycle -/

theorem step_cycle_lengths (k : State) (op : Op) (h : op.isSetCycleTime = false) :
    (step k op).metrics.cycleTime.samples.length =
      k.metrics.cycleTime.samples.length + (if op.isStartCycle then 1 else 0) ∧
    (step k op).metrics.maintTimePercent.samples.length =
      k.metrics.maintTimePercent.samples.length + (if op.isStartCycle then 1 else 0) ∧
    (step k op).metrics.actualProcTimePercent.samples.length =
      k.metrics.actualProcTimePercent.samples.length + (if op.isStartCycle then 1 else 0) := by
  cases op <;>
    simp [step, startCycle, KernelMetrics.setCycleTime, KernelMetrics.setMaintTime,
      KernelMetrics.setGenBlockTime, KernelMetrics.setAddBlockTime,
      KernelMetrics.setConfBlockTime, KernelMetrics.setEvalTime,
      KernelMetrics.setComputedProcTime, KernelMetrics.setActualProcTime,
      KernelMetrics.setBlockQCount, KernelMetrics.setRecvQCount, KernelMetrics.RecvQCount,
      KernelMetrics.getRecvQ, computeProcTime_metrics, KernelTime.up, SMASet.Add,
      Op.isStartCycle, Op.isSetCycleTime] at h ⊢

theorem run_cycle_lengths (ops : List Op) (k : State)
    (h : ∀ op ∈ ops, op.isSetCycleTime = false) :
    (run k ops).metrics.cycleTime.samples.length =
      k.metrics.cycleTime.samples.length + cycleStarts ops ∧
    (run k ops).metrics.maintTimePercent.samples.length =
      k.metrics.maintTimePercent.samples.length + cycleStarts ops ∧
    (run k ops).metrics.actualProcTimePercent.samples.length =
      k.metrics.actualProcTimePercent.samples.length + cycleStarts ops := by
  induction ops generalizing k with
  | nil => exact ⟨rfl, rfl, rfl⟩
  | cons op ops ih =>
    have hs := step_cycle_lengths k op (h op (List.mem_cons_self _ _))
    have hr := ih (step k op) (fun o ho => h o (List.mem_cons_of_mem _ ho))
    have hc := cycleStarts_cons op ops
    refine ⟨?_, ?_, ?_⟩
    · show (run (step k op) ops).metrics.cycleTime.samples.length = _
      rw [hr.1, hs.1, hc]; omega
    · show (run (step k op) ops).metrics.maintTimePercent.samples.length = _
      rw [hr.2.1, hs.2.1, hc]; omega
    · show (run (step k op) ops).metrics.actualProcTimePercent.samples.length = _
      rw [hr.2.2, hs.2.2, hc]; omega

/-- C15: after any sequence of operations from the initial state that contains no direct
call of `setCycleTime` (cycle times are recorded only through `startCycle()`), with fewer
than `2 ^ 64` cycle starts, the cycle-time series, the maintenance-percent series and the
actual-processing-percent series each hold exactly `CycleNumber()` samples. -/
theorem cycle_series_lengths (freq : F64) (ops : List Op)
    (hs : ∀ op ∈ ops, op.isSetCycleTime = false) (hlt : cycleStarts ops < 2 ^ 64) :
    (run (init freq) ops).metrics.cycleTime.samples.length =
      (run (init freq) ops).ktime.CycleNumber ∧
    (run (init freq) ops).metrics.maintTimePercent.samples.length =
      (run (init freq) ops).ktime.CycleNumber ∧
    (run (init freq) ops).metrics.actualProcTimePercent.samples.length =
      (run (init freq) ops).ktime.CycleNumber := by
  have h0 : (init freq).ktime.cycleNumber = 0 := rfl
  have h1 := run_cycleNumber ops (init freq)
  have h2 := run_cycleNumber_lt ops (init freq) (by rw [h0]; norm_num)
  rw [h0, Nat.zero_add, Nat.mod_eq_of_lt h2, Nat.mod_eq_of_lt hlt] at h1
  have hr := run_cycle_lengths ops (init freq) hs
  have e1 : (init freq).metrics.cycleTime.samples.length = 0 := rfl
  have e2 : (init freq).metrics.maintTimePercent.samples.length = 0 := rfl
  have e3 : (init freq).metrics.actualProcTimePercent.samples.length = 0 := rfl
  rw [e1, e2, e3] at hr
  simp only [KernelTime.CycleNumber, h1]
  omega

/-- Witness for C15: two cycle starts interleaved with other operations leave two samples
in each of the three series and cycle number 2. -/
theorem cycle_series_lengths_witness :
    (run (init (F64.fin 2))
      [.up 5, .startCycle 10, .setMaintTime 3, .computeProcTime,
       .startCycle 20]).metrics.cycleTime.samples.length =
    (run (init (F64.fin 2))
      [.up 5, .startCycle 10, .setMaintTime 3, .computeProcTime,
       .startCycle 20]).ktime.CycleNumber ∧
    (run (init (F64.fin 2))
      [.up 5, .startCycle 10, .setMaintTime 3, .computeProcTime,
       .startCycle 20]).ktime.CycleNumber = 2 :=
  ⟨(cycle_series_lengths (F64.fin 2)
      [.up 5, .startCycle 10, .setMaintTime 3, .computeProcTime, .startCycle 20]
      (by simp [Op.isSetCycleTime]) (by simp [cycleStarts, Op.isStartCycle])).1,
   rfl⟩

/-! ### The read accessor of the inbound-queue collection -/

/-- C16: `RecvQCount(name)` changes the aggregator when the name is absent: it appends an
empty series under the name, so the name, not a key of `RecvQCounts()` before, is one
afterwards; when the name is present the aggregator is left exactly as it was. -/
theorem RecvQCount_not_pure (m : KernelMetrics) (name : String) :
    (mapLoad m.recvQCounts name = none →
      (m.RecvQCount name).2.recvQCounts =
        m.recvQCounts ++ [(name, { windows := SMAWindows, samples := [] })] ∧
      name ∉ m.RecvQCounts.map Prod.fst ∧
      name ∈ (m.RecvQCount name).2.RecvQCounts.map Prod.fst ∧
      (m.RecvQCount name).2 ≠ m) ∧
    (∀ s : SMASet, mapLoad m.recvQCounts name = some s → (m.RecvQCount name).2 = m) := by
  constructor
  · intro h
    have h1 : (m.RecvQCount name).2.recvQCounts =
        m.recvQCounts ++ [(name, { windows := SMAWindows, samples := [] })] := by
      simp only [KernelMetrics.RecvQCount, KernelMetrics.getRecvQ, mapLoadOrStore, h, NewSMASet]
    have h2 : name ∉ m.recvQCounts.map Prod.fst := (mapLoad_none_iff _ _).mp h
    have hk : ∀ x : KernelMetrics, x.RecvQCounts.map Prod.fst = x.recvQCounts.map Prod.fst := by
      intro x
      simp [KernelMetrics.RecvQCounts, List.map_map, Function.comp_def]
    refine ⟨h1, ?_, ?_, ?_⟩
    · rw [hk]; exact h2
    · rw [hk, h1]; simp
    · intro he
      have hlen := congrArg (fun x => x.recvQCounts.length) he
      simp only [h1, List.length_append, List.length_singleton] at hlen
      omega
  · intro s h
    simp only [KernelMetrics.RecvQCount, KernelMetrics.getRecvQ, mapLoadOrStore, h]

/-- Witness for C16: on the fresh aggregator reading "tcp" creates the empty series. -/
theorem RecvQCount_not_pure_witness :
    mapLoad initMetrics.recvQCounts "tcp" = none ∧
    (initMetrics.RecvQCount "tcp").2.recvQCounts =
      [("tcp", { windows := SMAWindows, samples := [] })] := by
  refine ⟨rfl, ?_⟩
  have h := ((RecvQCount_not_pure initMetrics "tcp").1 rfl).1
  simpa [initMetrics] using h

end Kernel
